import Mathlib

/-!
Verification development for the token-representation batch worker.

The definitions below are shallow embeddings of the worker's components:
the PostgreSQL sink (`src/database/postgres.py`), the ClickHouse client
(`src/database/db.py`), the consolidated swap aggregations
(`src/processors/liquidity_analyzer.py` and
`src/solana/processors/liquidity_analyzer.py`), the in-memory metric
computation of the chunk workers (`src/core/main.py`,
`src/evm/core/evm_worker.py`), the price calculators
(`src/processors/price_calculator.py`,
`src/evm/processors/price_calculator.py`), the scheduled worker entry point
(`worker_scheduled.py`) and the Metaplex metadata PDA derivation
(`src/processors/metadata_fetcher.py`).

Machine floats of the source are modelled as exact rationals, SQL NULL as
`Option`, and table states as lists of rows.  Theorems about the claims of
the specification follow the definitions.
-/

set_option maxRecDepth 40000

set_option allowUnsafeReducibility true

attribute [semireducible] Rat.add Rat.mul Rat.div Rat.inv Rat.neg Rat.sub

namespace TokenRep

/-- SQL COALESCE of two nullable values: the first non-null one. -/
def coalesce {α : Type} : Option α → Option α → Option α
  | some a, _ => some a
  | none, b => b

/-- Python `float(row.get(k, 0) or 0)` on a nullable numeric field:
`None` maps to `0`, any value is passed through (`0` maps to itself). -/
def pyFloatOr0 : Option ℚ → ℚ
  | none => 0
  | some q => q

/-- Split a list into consecutive batches of size `bs`
(the `rows[i:i + batch_size]` slicing loop), via a fuel argument that
makes the recursion structural. -/
def toBatchesAux {α : Type} (bs : Nat) : Nat → List α → List (List α)
  | 0, l => if l.isEmpty then [] else [l]
  | fuel + 1, l => if l.isEmpty then [] else l.take bs :: toBatchesAux bs fuel (l.drop bs)

/-- Split a list into consecutive batches of size `bs`. -/
def toBatches {α : Type} (bs : Nat) (l : List α) : List (List α) :=
  toBatchesAux bs l.length l

theorem toBatchesAux_flatten {α : Type} (bs : Nat) :
    ∀ (fuel : Nat) (l : List α), (toBatchesAux bs fuel l).flatten = l := by
  intro fuel
  induction fuel with
  | zero =>
    intro l
    cases l with
    | nil => rfl
    | cons a l => simp [toBatchesAux]
  | succ fuel ih =>
    intro l
    cases l with
    | nil => rfl
    | cons a l =>
      rw [toBatchesAux]
      simp [ih ((a :: l).drop bs), List.take_append_drop]

theorem toBatches_flatten {α : Type} (bs : Nat) (l : List α) :
    (toBatches bs l).flatten = l :=
  toBatchesAux_flatten bs l.length l

theorem filter_map_comm {α β : Type} (f : α → β) (p : β → Bool) :
    ∀ l : List α, (l.map f).filter p = (l.filter (fun a => p (f a))).map f := by
  intro l
  induction l with
  | nil => rfl
  | cons a l ih =>
    rw [List.map_cons, List.filter_cons, List.filter_cons]
    by_cases h : p (f a)
    · simp [h, ih]
    · simp [h, ih]

theorem getLastOpt_map {α β : Type} (f : α → β) :
    ∀ l : List α, (l.map f).getLast? = (l.getLast?).map f := by
  intro l
  induction l with
  | nil => rfl
  | cons a l ih =>
    cases l with
    | nil => rfl
    | cons b l2 =>
      rw [List.map_cons, List.map_cons, List.getLast?_cons_cons, ← List.map_cons,
        List.getLast?_cons_cons]
      exact ih

namespace Pg

/-- A stored row of the `unverified_tokens` output table, with the data
columns of the schema created by `_ensure_table_exists`. -/
structure StoredRow where
  contract_address : String
  chain : String
  decimals : Option Int
  symbol : Option String
  name : Option String
  price_usd : ℚ
  market_cap_usd : ℚ
  supply : ℚ
  largest_lp_pool_usd : ℚ
  first_tx_date : Option Int
  view_source : Option String
  updated_at : Int
deriving Repr, DecidableEq

/-- One row of the Polars frame handed to the sink: every field nullable
exactly as `row.get(...)` can return `None`. -/
structure InputRow where
  mint : String
  chain : String
  decimals : Option Int
  symbol : Option String
  name : Option String
  price_usd : Option ℚ
  market_cap_usd : Option ℚ
  supply : Option ℚ
  largest_lp_pool_usd : Option ℚ
  first_tx_date : Option Int
deriving Repr, DecidableEq

/-- The state of the `unverified_tokens` relation. -/
abbrev Table := List StoredRow

/-- The upsert key of the output table: `UNIQUE (contract_address, chain)`. -/
def rowKey (r : StoredRow) : String × String := (r.contract_address, r.chain)

/-- Look up the stored row for a `(contract_address, chain)` key. -/
def lookupRow (t : Table) (k : String × String) : Option StoredRow :=
  t.find? (fun r => decide (rowKey r = k))

/-- The `_get_known_decimals` lookup of `insert_token_metrics_batch`:
the stored decimals for a key when they are non-null, nothing otherwise
(the SQL filters `WHERE tm.decimals IS NOT NULL`). -/
def getKnownDecimals (t : Table) (k : String × String) : Option Int :=
  (lookupRow t k).bind (fun r => r.decimals)

/-- Effect of the `ON CONFLICT (contract_address, chain) DO UPDATE` clause of
`insert_token_metrics_batch`: `decimals` and `first_tx_date` keep the stored
value when it is non-null (`COALESCE(unverified_tokens.c, EXCLUDED.c)`);
every other data column takes the incoming row's value. -/
def insertConflictUpdate (old new : StoredRow) : StoredRow :=
  { old with
    decimals := coalesce old.decimals new.decimals
    first_tx_date := coalesce old.first_tx_date new.first_tx_date
    symbol := new.symbol
    name := new.name
    price_usd := new.price_usd
    market_cap_usd := new.market_cap_usd
    supply := new.supply
    largest_lp_pool_usd := new.largest_lp_pool_usd
    view_source := new.view_source
    updated_at := new.updated_at }

/-- Execute the upsert statement of `insert_token_metrics_batch` for one
parameter tuple: its conflict target `(contract_address, chain)` matches the
`unique_token_chain` constraint, so a row with the same key is updated per
`insertConflictUpdate` and a fresh key is inserted. -/
def execInsertUpsert (t : Table) (r : StoredRow) : Table :=
  if t.any (fun old => decide (rowKey old = rowKey r)) then
    t.map (fun old => if rowKey old = rowKey r then insertConflictUpdate old r else old)
  else t ++ [r]

/-- Python-side construction of one parameter tuple in
`insert_token_metrics_batch`: decimals already known in the table override
the incoming value (`decimals_to_use`), numeric fields go through
`float(x or 0)`, `view_source` and the shared `update_time` are appended. -/
def buildInsertRow (known : String × String → Option Int) (viewSource : String)
    (updateTime : Int) (row : InputRow) : StoredRow :=
  { contract_address := row.mint
    chain := row.chain
    decimals := match known (row.mint, row.chain) with
      | some d => some d
      | none => row.decimals
    symbol := row.symbol
    name := row.name
    price_usd := pyFloatOr0 row.price_usd
    market_cap_usd := pyFloatOr0 row.market_cap_usd
    supply := pyFloatOr0 row.supply
    largest_lp_pool_usd := pyFloatOr0 row.largest_lp_pool_usd
    first_tx_date := row.first_tx_date
    view_source := some viewSource
    updated_at := updateTime }

/-- Run the prepared batches in order.  Each batch executes its tuples
sequentially and commits on its own (`self.connection.commit()` per batch);
a batch whose `executemany` fails rolls back only itself and re-raises,
leaving the commits of earlier batches in place.  `failAt` tells which
batch indices fail. -/
def runInsertBatches (failAt : Nat → Bool) :
    Table → List (List StoredRow) → Nat → Nat → Table × Except Unit Nat
  | t, [], _, total => (t, Except.ok total)
  | t, b :: rest, i, total =>
    if failAt i then (t, Except.error ())
    else runInsertBatches failAt (b.foldl execInsertUpsert t) rest (i + 1) (total + b.length)

/-- `insert_token_metrics_batch`: read the known decimals from the current
table state, build the parameter tuples, then upsert them in batches of
`batchSize` (callers pass 1000). -/
def insertTokenMetricsBatch (failAt : Nat → Bool) (t : Table) (df : List InputRow)
    (viewSource : String) (updateTime : Int) (batchSize : Nat) : Table × Except Unit Nat :=
  runInsertBatches failAt t
    (toBatches batchSize
      (df.map (buildInsertRow (fun k => getKnownDecimals t k) viewSource updateTime)))
    0 0

/-- Column lists of the unique indexes on `unverified_tokens` as created by
`_ensure_table_exists`: the BIGSERIAL primary key and the
`unique_token_chain` constraint.  The plain (non-unique) indexes cannot
arbitrate ON CONFLICT and are not listed. -/
def uniqueIndexColumns : List (List String) :=
  [["id"], ["contract_address", "chain"]]

/-- Conflict target written in the ON CONFLICT clause of
`upsert_token_metrics_batch`. -/
def upsertConflictTarget : List String :=
  ["contract_address", "chain", "updated_at"]

/-- PostgreSQL arbiter inference for `ON CONFLICT (cols)`: the statement is
accepted only when the named columns are exactly the columns of some unique
index of the table; otherwise planning fails with "there is no unique or
exclusion constraint matching the ON CONFLICT specification". -/
def arbiterMatches (target : List String) : Bool :=
  uniqueIndexColumns.any (fun idx =>
    idx.all (fun c => target.contains c) && target.all (fun c => idx.contains c))

/-- Effect of the `DO UPDATE` clause of `upsert_token_metrics_batch` as
written: `decimals`, `first_tx_date` and all other data columns take the
incoming row's values; `updated_at` is absent from the SET list. -/
def upsertConflictUpdate (old new : StoredRow) : StoredRow :=
  { old with
    decimals := new.decimals
    symbol := new.symbol
    name := new.name
    price_usd := new.price_usd
    market_cap_usd := new.market_cap_usd
    supply := new.supply
    largest_lp_pool_usd := new.largest_lp_pool_usd
    first_tx_date := new.first_tx_date
    view_source := new.view_source }

/-- Row construction in `upsert_token_metrics_batch`: the incoming values are
used as they are (no known-decimals lookup). -/
def buildUpsertRow (viewSource : String) (updateTime : Int) (row : InputRow) : StoredRow :=
  { contract_address := row.mint
    chain := row.chain
    decimals := row.decimals
    symbol := row.symbol
    name := row.name
    price_usd := pyFloatOr0 row.price_usd
    market_cap_usd := pyFloatOr0 row.market_cap_usd
    supply := pyFloatOr0 row.supply
    largest_lp_pool_usd := pyFloatOr0 row.largest_lp_pool_usd
    first_tx_date := row.first_tx_date
    view_source := some viewSource
    updated_at := updateTime }

/-- Hypothetical execution of the `upsert_token_metrics_batch` statement for
one tuple, were its conflict target accepted: conflict on equality of all
three target columns, update per `upsertConflictUpdate`. -/
def execUpsertByTarget (t : Table) (r : StoredRow) : Table :=
  if t.any (fun old => decide (old.contract_address = r.contract_address ∧
      old.chain = r.chain ∧ old.updated_at = r.updated_at)) then
    t.map (fun old =>
      if old.contract_address = r.contract_address ∧ old.chain = r.chain ∧
          old.updated_at = r.updated_at then upsertConflictUpdate old r else old)
  else t ++ [r]

/-- `upsert_token_metrics_batch`: an empty frame executes no statement and
reports 0 rows.  With a non-empty frame the first `executemany` plans the
INSERT; since the conflict target `(contract_address, chain, updated_at)`
matches no unique index of `unverified_tokens`, PostgreSQL rejects the
statement, the transaction rolls back and the error is re-raised, leaving
the table unchanged. -/
def upsertTokenMetricsBatch (t : Table) (df : List InputRow) (viewSource : String)
    (updateTime : Int) (batchSize : Nat) : Table × Except Unit Nat :=
  if (df.map (buildUpsertRow viewSource updateTime)).isEmpty then (t, Except.ok 0)
  else if arbiterMatches upsertConflictTarget then
    ((toBatches batchSize (df.map (buildUpsertRow viewSource updateTime))).foldl
        (fun acc b => b.foldl execUpsertByTarget acc) t,
      Except.ok (df.map (buildUpsertRow viewSource updateTime)).length)
  else (t, Except.error ())

theorem lookupRow_any (t : Table) (k : String × String) (r : StoredRow)
    (h : lookupRow t k = some r) :
    t.any (fun old => decide (rowKey old = k)) = true := by
  induction t with
  | nil => simp [lookupRow] at h
  | cons x xs ih =>
    rw [lookupRow, List.find?] at h
    by_cases hx : rowKey x = k
    · simp [hx]
    · simp only [decide_eq_true_eq, hx, decide_False] at h
      simp only [List.any_cons, Bool.or_eq_true]
      exact Or.inr (ih h)

theorem lookupRow_key (t : Table) (k : String × String) (r : StoredRow)
    (h : lookupRow t k = some r) : rowKey r = k := by
  have := List.find?_some h
  simpa using this

theorem lookupRow_map_keyFixed (t : Table) (k : String × String)
    (g : StoredRow → StoredRow) (hg : ∀ x, rowKey (g x) = rowKey x) :
    lookupRow (t.map g) k = (lookupRow t k).map g := by
  induction t with
  | nil => simp [lookupRow]
  | cons x xs ih =>
    rw [List.map_cons, lookupRow, List.find?, lookupRow, List.find?]
    by_cases hx : rowKey x = k
    · simp [hg, hx]
    · simp only [hg, hx, decide_False]
      exact ih

theorem execInsertUpsert_existing (t : Table) (k : String × String) (r new : StoredRow)
    (h : lookupRow t k = some r) (hnew : rowKey new = k) :
    lookupRow (execInsertUpsert t new) k = some (insertConflictUpdate r new) := by
  rw [execInsertUpsert, hnew, lookupRow_any t k r h]
  simp only [if_true]
  rw [lookupRow_map_keyFixed]
  · rw [h]
    simp [lookupRow_key t k r h]
  · intro x
    split
    · rfl
    · rfl

theorem lookupRow_append_left (t l2 : Table) (k : String × String) (r : StoredRow)
    (h : lookupRow t k = some r) : lookupRow (t ++ l2) k = some r := by
  induction t with
  | nil => simp [lookupRow] at h
  | cons x xs ih =>
    rw [lookupRow, List.cons_append, List.find?]
    rw [lookupRow, List.find?] at h
    by_cases hx : rowKey x = k
    · simpa [hx] using h
    · simp only [hx, decide_False] at h ⊢
      exact ih h

theorem lookupRow_execInsertUpsert_ne (t : Table) (x : StoredRow) (k : String × String)
    (hne : rowKey x ≠ k) (r : StoredRow) (h : lookupRow t k = some r) :
    lookupRow (execInsertUpsert t x) k = some r := by
  rw [execInsertUpsert]
  split
  · rw [lookupRow_map_keyFixed]
    · have hrk := lookupRow_key t k r h
      have hnk : ¬ (k = rowKey x) := fun heq => hne heq.symm
      rw [h]
      simp [hrk, hnk]
    · intro y
      split
      · rfl
      · rfl
  · exact lookupRow_append_left t [x] k r h

/-- The successive application of the ON CONFLICT update clause of
`insert_token_metrics_batch` by the incoming rows of one key, in execution
order. -/
def applyConflictSeq (r : StoredRow) (rs : List StoredRow) : StoredRow :=
  rs.foldl insertConflictUpdate r

theorem foldl_execInsertUpsert_lookup (k : String × String) :
    ∀ (rows : List StoredRow) (t : Table) (r : StoredRow),
      lookupRow t k = some r →
      lookupRow (rows.foldl execInsertUpsert t) k
        = some (applyConflictSeq r (rows.filter (fun x => decide (rowKey x = k)))) := by
  intro rows
  induction rows with
  | nil =>
    intro t r h
    simpa [applyConflictSeq] using h
  | cons x rows ih =>
    intro t r h
    rw [List.foldl_cons]
    by_cases hx : rowKey x = k
    · rw [ih (execInsertUpsert t x) (insertConflictUpdate r x)
        (execInsertUpsert_existing t k r x h hx)]
      rw [List.filter_cons]
      simp [hx, applyConflictSeq]
    · rw [ih (execInsertUpsert t x) r (lookupRow_execInsertUpsert_ne t x k hx r h)]
      rw [List.filter_cons]
      simp [hx]

theorem applyConflictSeq_decimals (d : Int) :
    ∀ (rs : List StoredRow) (r : StoredRow), r.decimals = some d →
      (applyConflictSeq r rs).decimals = some d := by
  intro rs
  induction rs with
  | nil => intro r h; exact h
  | cons x rs ih =>
    intro r h
    exact ih (insertConflictUpdate r x) (by simp [insertConflictUpdate, h, coalesce])

theorem applyConflictSeq_first_tx (ft : Int) :
    ∀ (rs : List StoredRow) (r : StoredRow), r.first_tx_date = some ft →
      (applyConflictSeq r rs).first_tx_date = some ft := by
  intro rs
  induction rs with
  | nil => intro r h; exact h
  | cons x rs ih =>
    intro r h
    exact ih (insertConflictUpdate r x) (by simp [insertConflictUpdate, h, coalesce])

theorem applyConflictSeq_last_values :
    ∀ (rs : List StoredRow) (r b : StoredRow), rs.getLast? = some b →
      (applyConflictSeq r rs).symbol = b.symbol ∧
      (applyConflictSeq r rs).name = b.name ∧
      (applyConflictSeq r rs).price_usd = b.price_usd ∧
      (applyConflictSeq r rs).market_cap_usd = b.market_cap_usd ∧
      (applyConflictSeq r rs).supply = b.supply ∧
      (applyConflictSeq r rs).largest_lp_pool_usd = b.largest_lp_pool_usd ∧
      (applyConflictSeq r rs).view_source = b.view_source ∧
      (applyConflictSeq r rs).updated_at = b.updated_at := by
  intro rs
  induction rs with
  | nil => intro r b h; simp at h
  | cons x rs ih =>
    intro r b h
    cases rs with
    | nil =>
      have hb : x = b := by simpa using h
      rw [← hb]
      exact ⟨rfl, rfl, rfl, rfl, rfl, rfl, rfl, rfl⟩
    | cons y rs2 =>
      have h2 : (y :: rs2).getLast? = some b := by
        rwa [List.getLast?_cons_cons] at h
      exact ih (insertConflictUpdate r x) b h2

theorem runInsertBatches_noFail :
    ∀ (batches : List (List StoredRow)) (t : Table) (i total : Nat),
      runInsertBatches (fun _ => false) t batches i total
        = (batches.flatten.foldl execInsertUpsert t,
            Except.ok (total + batches.flatten.length)) := by
  intro batches
  induction batches with
  | nil =>
    intro t i total
    simp [runInsertBatches]
  | cons b rest ih =>
    intro t i total
    rw [show runInsertBatches (fun _ => false) t (b :: rest) i total
        = runInsertBatches (fun _ => false) (b.foldl execInsertUpsert t) rest (i + 1)
            (total + b.length) from rfl]
    rw [ih]
    simp [List.foldl_append, Nat.add_assoc]

/-- C1: for every upsert via the sink's `insert_token_metrics_batch`, with an
arbitrary batch frame: a stored non-null `decimals` survives unchanged, a
stored non-null `first_tx_date` independently survives unchanged, regardless
of the values carried by the batch rows; and every other data column takes
the values of the batch's last row for the key, together with the run's
view_source and update time. -/
theorem insert_batch_preserves_decimals_and_first_tx
    (t : Table) (df : List InputRow) (viewSource : String) (updateTime : Int)
    (batchSize : Nat) (k : String × String) (r : StoredRow)
    (hk : lookupRow t k = some r) :
    ∃ r2,
      lookupRow (insertTokenMetricsBatch (fun _ => false) t df viewSource updateTime
          batchSize).1 k = some r2 ∧
      (∀ d, r.decimals = some d → r2.decimals = some d) ∧
      (∀ ft, r.first_tx_date = some ft → r2.first_tx_date = some ft) ∧
      (∀ b, (df.filter (fun x => decide ((x.mint, x.chain) = k))).getLast? = some b →
        r2.symbol = b.symbol ∧
        r2.name = b.name ∧
        r2.price_usd = pyFloatOr0 b.price_usd ∧
        r2.market_cap_usd = pyFloatOr0 b.market_cap_usd ∧
        r2.supply = pyFloatOr0 b.supply ∧
        r2.largest_lp_pool_usd = pyFloatOr0 b.largest_lp_pool_usd ∧
        r2.view_source = some viewSource ∧
        r2.updated_at = updateTime) := by
  have hrun : (insertTokenMetricsBatch (fun _ => false) t df viewSource updateTime
      batchSize).1
      = (df.map (buildInsertRow (fun k2 => getKnownDecimals t k2) viewSource
          updateTime)).foldl execInsertUpsert t := by
    rw [insertTokenMetricsBatch, runInsertBatches_noFail, toBatches_flatten]
  refine ⟨applyConflictSeq r
      ((df.map (buildInsertRow (fun k2 => getKnownDecimals t k2) viewSource
        updateTime)).filter (fun x => decide (rowKey x = k))), ?_, ?_, ?_, ?_⟩
  · rw [hrun]
    exact foldl_execInsertUpsert_lookup k _ t r hk
  · intro d hd
    exact applyConflictSeq_decimals d _ r hd
  · intro ft hft
    exact applyConflictSeq_first_tx ft _ r hft
  · intro b hb
    have hlast : ((df.map (buildInsertRow (fun k2 => getKnownDecimals t k2) viewSource
        updateTime)).filter (fun x => decide (rowKey x = k))).getLast?
        = some (buildInsertRow (fun k2 => getKnownDecimals t k2) viewSource updateTime b) := by
      rw [filter_map_comm, getLastOpt_map]
      have hb2 : (df.filter (fun a => decide
          (rowKey (buildInsertRow (fun k2 => getKnownDecimals t k2) viewSource updateTime a)
            = k))).getLast? = some b := hb
      rw [hb2]
      rfl
    exact applyConflictSeq_last_values _ r _ hlast

/-- Concrete stored table for exercising the sink theorems: one row with
non-null decimals and first_tx_date. -/
def sampleTable : Table :=
  [{ contract_address := "tokA"
     chain := "solana"
     decimals := some 8
     symbol := some "OLD"
     name := none
     price_usd := 1
     market_cap_usd := 2
     supply := 3
     largest_lp_pool_usd := 4
     first_tx_date := some 111
     view_source := some "v0"
     updated_at := 10 }]

/-- Concrete batch row carrying different decimals and first_tx_date for the
same key. -/
def sampleInput : InputRow :=
  { mint := "tokA"
    chain := "solana"
    decimals := some 6
    symbol := some "NEW"
    name := some "New Name"
    price_usd := some (5 / 2)
    market_cap_usd := none
    supply := some 7
    largest_lp_pool_usd := none
    first_tx_date := some 222 }

/-- Second concrete batch row for the same key, following the first in the
frame and carrying yet other values. -/
def sampleInput2 : InputRow :=
  { mint := "tokA"
    chain := "solana"
    decimals := none
    symbol := some "NEW2"
    name := none
    price_usd := some 7
    market_cap_usd := some 8
    supply := some 9
    largest_lp_pool_usd := none
    first_tx_date := none }

/-- Witness for C1: a concrete two-row frame for one key, upserted against a
stored row holding decimals 8 and first_tx_date 111, keeps both stored
values and takes every other data column from the frame's last row. -/
theorem insert_batch_preserves_decimals_and_first_tx_witness :
    ((lookupRow (insertTokenMetricsBatch (fun _ => false) sampleTable
        [sampleInput, sampleInput2] "v1" 99 1000).1 ("tokA", "solana")).map
      (fun r2 => (r2.decimals, r2.first_tx_date, r2.symbol, r2.name, r2.price_usd,
        r2.market_cap_usd, r2.supply, r2.largest_lp_pool_usd, r2.view_source,
        r2.updated_at)))
      = some (some 8, some 111, some "NEW2", none, 7, 8, 9, 0, some "v1", 99) := by
  obtain ⟨r2, hl, hdec, hft, hlast⟩ :=
    insert_batch_preserves_decimals_and_first_tx sampleTable [sampleInput, sampleInput2]
      "v1" 99 1000 ("tokA", "solana") (sampleTable.get ⟨0, by simp [sampleTable]⟩) rfl
  obtain ⟨hs, hn, hp, hm, hsu, hlq, hv, hu⟩ := hlast sampleInput2 (by rfl)
  rw [hl]
  simp [hdec 8 rfl, hft 111 rfl, hs, hn, hp, hm, hsu, hlq, hv, hu, sampleInput2,
    pyFloatOr0]

/-- C10 counterexample: through `upsert_token_metrics_batch` no sequence of
two calls on the same `(contract_address, chain)` key replaces a stored
non-null decimals value, because the statement's conflict target matches no
unique index and every non-empty call fails without writing: here the stored
decimals 8 survive two consecutive calls carrying decimals 6. -/
theorem upsert_batch_overwrite_attempt_fails :
    getKnownDecimals sampleTable ("tokA", "solana") = some 8 ∧
    upsertTokenMetricsBatch sampleTable [sampleInput] "v1" 1 1000
      = (sampleTable, Except.error ()) ∧
    upsertTokenMetricsBatch
        (upsertTokenMetricsBatch sampleTable [sampleInput] "v1" 1 1000).1 [sampleInput] "v2" 2 1000
      = (sampleTable, Except.error ()) := by
  exact ⟨rfl, rfl, rfl⟩

/-- C10 amended: the `DO UPDATE` clause of `upsert_token_metrics_batch` as
written does assign `decimals` and `first_tx_date` from the incoming row, but
its conflict target `(contract_address, chain, updated_at)` matches no unique
index of `unverified_tokens`, so every call on a non-empty frame fails and
leaves the table unchanged: the once-set preservation of decimals and
first_tx_date therefore holds across every write the sink can perform. -/
theorem upsert_batch_never_writes (t : Table) (df : List InputRow) (viewSource : String)
    (updateTime : Int) (batchSize : Nat) (h : df ≠ []) :
    upsertTokenMetricsBatch t df viewSource updateTime batchSize = (t, Except.error ()) ∧
    (∀ old new : StoredRow,
      (upsertConflictUpdate old new).decimals = new.decimals ∧
      (upsertConflictUpdate old new).first_tx_date = new.first_tx_date) := by
  refine ⟨?_, fun old new => ⟨rfl, rfl⟩⟩
  rw [upsertTokenMetricsBatch]
  have hne : (df.map (buildUpsertRow viewSource updateTime)).isEmpty = false := by
    cases df with
    | nil => exact absurd rfl h
    | cons a l => rfl
  rw [hne]
  have harb : arbiterMatches upsertConflictTarget = false := by decide
  rw [harb]
  simp

/-- Witness for the amended C10 statement at a concrete one-row frame. -/
theorem upsert_batch_never_writes_witness :
    upsertTokenMetricsBatch sampleTable [sampleInput] "v1" 1 1000
      = (sampleTable, Except.error ()) :=
  (upsert_batch_never_writes sampleTable [sampleInput] "v1" 1 1000 (by simp)).1

end Pg

namespace Ch

/-- Substring containment, Python's `needle in msg`. -/
def containsSub (hay needle : String) : Bool :=
  hay.toList.tails.any (fun t => needle.toList.isPrefixOf t)

/-- The session-locked classifier of the except blocks in
`execute_query` / `execute_query_dict`:
`'SESSION_IS_LOCKED' in msg or 'code: 373' in msg`. -/
def isSessionLockedMsg (msg : String) : Bool :=
  containsSub msg "SESSION_IS_LOCKED" || containsSub msg "code: 373"

/-- Settings attached to a query execution attempt. -/
structure QuerySettings where
  sessionId : Nat
  sessionTimeout : Nat
  maxExecutionTime : Nat
deriving Repr, DecidableEq

/-- Settings built for attempt `i`: a fresh session identifier drawn from the
uuid4 supply `sid`, and the 900-second session and execution-time caps. -/
def settingsFor (sid : Nat → Nat) (i : Nat) : QuerySettings :=
  { sessionId := sid i, sessionTimeout := 900, maxExecutionTime := 900 }

/-- Outcome of one backend execution of a query: result rows, or an error
carrying its message string. -/
inductive Outcome (α : Type) where
  | ok (rows : α)
  | fail (msg : String)

/-- The retry loop shared verbatim by `ClickHouseClient.execute_query` and
`ClickHouseClient.execute_query_dict` (they differ only in row decoding):
`attempts = 2`; each attempt runs with fresh settings; a first failure whose
message passes the session-locked test reconnects and retries once; any
other first failure, and any second failure whatsoever, is raised.  The
result is returned together with the settings of the attempts made. -/
def executeQuery {α : Type} (backend : QuerySettings → Outcome α) (sid : Nat → Nat) :
    Except String α × List QuerySettings :=
  match backend (settingsFor sid 0) with
  | Outcome.ok r => (Except.ok r, [settingsFor sid 0])
  | Outcome.fail m =>
    if isSessionLockedMsg m then
      match backend (settingsFor sid 1) with
      | Outcome.ok r => (Except.ok r, [settingsFor sid 0, settingsFor sid 1])
      | Outcome.fail m2 => (Except.error m2, [settingsFor sid 0, settingsFor sid 1])
    else (Except.error m, [settingsFor sid 0])

/-- C7: for every analytics query execution, a session-locked error triggers
exactly one reconnect-and-retry of the same query (a second session-locked or
any other second failure propagates), any other error propagates without a
retry, at most two attempts are ever made, and each attempt runs with a
15-minute execution cap and a fresh session identifier. -/
theorem execute_query_retry_contract {α : Type}
    (backend : QuerySettings → Outcome α) (sid : Nat → Nat) :
    (∀ r, backend (settingsFor sid 0) = Outcome.ok r →
      executeQuery backend sid = (Except.ok r, [settingsFor sid 0])) ∧
    (∀ m, backend (settingsFor sid 0) = Outcome.fail m → isSessionLockedMsg m = false →
      executeQuery backend sid = (Except.error m, [settingsFor sid 0])) ∧
    (∀ m r, backend (settingsFor sid 0) = Outcome.fail m → isSessionLockedMsg m = true →
      backend (settingsFor sid 1) = Outcome.ok r →
      executeQuery backend sid = (Except.ok r, [settingsFor sid 0, settingsFor sid 1])) ∧
    (∀ m m2, backend (settingsFor sid 0) = Outcome.fail m → isSessionLockedMsg m = true →
      backend (settingsFor sid 1) = Outcome.fail m2 →
      executeQuery backend sid = (Except.error m2, [settingsFor sid 0, settingsFor sid 1])) ∧
    (executeQuery backend sid).2.length ≤ 2 ∧
    (∀ s ∈ (executeQuery backend sid).2, s.maxExecutionTime = 15 * 60) ∧
    (Function.Injective sid →
      ((executeQuery backend sid).2.map QuerySettings.sessionId).Nodup) := by
  refine ⟨?_, ?_, ?_, ?_, ?_, ?_, ?_⟩
  · intro r h
    rw [executeQuery, h]
  · intro m h hm
    rw [executeQuery, h]
    simp [hm]
  · intro m r h hm h2
    rw [executeQuery, h]
    simp [hm, h2]
  · intro m m2 h hm h2
    rw [executeQuery, h]
    simp [hm, h2]
  · rw [executeQuery]
    cases hb : backend (settingsFor sid 0) with
    | ok r => simp
    | fail m =>
      by_cases hm : isSessionLockedMsg m
      · simp only [hm, if_true]
        cases hb2 : backend (settingsFor sid 1) <;> simp
      · simp [hm]
  · rw [executeQuery]
    cases hb : backend (settingsFor sid 0) with
    | ok r => simp [settingsFor]
    | fail m =>
      by_cases hm : isSessionLockedMsg m
      · simp only [hm, if_true]
        cases hb2 : backend (settingsFor sid 1) <;> simp [settingsFor]
      · simp [hm, settingsFor]
  · intro hinj
    rw [executeQuery]
    cases hb : backend (settingsFor sid 0) with
    | ok r => simp
    | fail m =>
      by_cases hm : isSessionLockedMsg m
      · simp only [hm, if_true]
        have hne : sid 0 ≠ sid 1 := fun heq => absurd (hinj heq) (by decide)
        cases hb2 : backend (settingsFor sid 1) <;> simp [settingsFor, hne]
      · simp [hm]

/-- A concrete backend that reports a session-locked error on the first
session identifier and rows on any other. -/
def lockedOnceBackend : QuerySettings → Outcome Nat := fun s =>
  if s.sessionId = 0 then Outcome.fail "DB::Exception: SESSION_IS_LOCKED (code: 373)"
  else Outcome.ok 7

/-- Witness for C7: against a backend whose first attempt is session-locked,
the client retries once with a fresh session identifier and returns the rows
of the second attempt. -/
theorem execute_query_retry_contract_witness :
    executeQuery lockedOnceBackend (fun i => i)
      = (Except.ok 7, [settingsFor (fun i => i) 0, settingsFor (fun i => i) 1]) :=
  (execute_query_retry_contract lockedOnceBackend (fun i => i)).2.2.1
    "DB::Exception: SESSION_IS_LOCKED (code: 373)" 7 rfl rfl rfl

end Ch

namespace Swaps

/-- A row of the `solana.swaps` event table (the columns the consolidated
queries read). -/
structure Swap where
  source : String
  base_coin : String
  quote_coin : String
  base_coin_amount : ℚ
  quote_coin_amount : ℚ
  base_pool_balance_after : ℚ
  quote_pool_balance_after : ℚ
  block_time : Int
deriving Repr, DecidableEq

/-- Wrapped SOL mint address. -/
def SOL_ADDRESS : String := "So11111111111111111111111111111111111111112"

/-- USDC mint address. -/
def USDC : String := "EPjFWdd5AufqSSqeM2qN1xzybapC8G4wEGGkZwyTDt1v"

/-- USDT mint address. -/
def USDT : String := "Es9vMFrzaCERmJfrF4H2FYD4KCoNkY11McCe8BenwNYB"

/-- The allowlist of direct DEX sources of the consolidated queries
(aggregator and routing venues excluded). -/
def allowedSources : List String :=
  ["pumpfun_bondingcurve", "raydium_swap_v4", "raydium_swap_cpmm",
   "raydium_swap_clmm", "raydium_swap_stable", "raydium_bondingcurve",
   "meteora_swap_dlmm", "meteora_swap_pools", "meteora_swap_damm",
   "meteora_bondingcurve", "orca_swap", "phoenix_swap", "lifinity_swap_v2",
   "pumpswap_swap", "degenfund"]

/-- One row of the `unified_swaps` CTE: the chunk token on one side, the
reference (SOL or stablecoin) on the other. -/
structure URow where
  token : String
  source : String
  base_coin : String
  quote_coin : String
  block_time : Int
  token_amount : ℚ
  ref_amount : ℚ
  ref_type : String
  base_pool_balance_after : ℚ
  quote_pool_balance_after : ℚ
  ref_balance_raw : ℚ
deriving Repr, DecidableEq

/-- ClickHouse `argMax(x, key)` over a group: the value at the greatest key,
keeping the earlier row on ties. -/
def argMaxBy {α β : Type} [LinearOrder β] (key : α → β) : List α → Option α
  | [] => none
  | x :: xs => some (xs.foldl (fun acc y => if key acc < key y then y else acc) x)

/-- ClickHouse `max` of a numeric expression over a group (0 on the empty
group, which the callers never hit). -/
def maxOf {α : Type} (f : α → ℚ) : List α → ℚ
  | [] => 0
  | x :: xs => xs.foldl (fun acc y => max acc (f y)) (f x)

/-- ClickHouse `min(block_time)` over a group (0 on the empty group, which
the callers never hit). -/
def minTimeOf {α : Type} (f : α → Int) : List α → Int
  | [] => 0
  | x :: xs => xs.foldl (fun acc y => min acc (f y)) (f x)

/-- ClickHouse `sumIf(f, p)` over a group. -/
def sumIf {α : Type} (f : α → ℚ) (p : α → Bool) (l : List α) : ℚ :=
  ((l.filter p).map f).sum

/-- ClickHouse `countIf(p)` over a group. -/
def countIf {α : Type} (p : α → Bool) (l : List α) : Nat :=
  (l.filter p).length

/-- ClickHouse `argMaxIf(ref_amount / token_amount, block_time, p)`:
the last trade price among rows satisfying `p`, with ClickHouse's default
value 0 when no row matches. -/
def lastPriceIf (p : URow → Bool) (l : List URow) : ℚ :=
  match argMaxBy (fun r => r.block_time) (l.filter p) with
  | none => 0
  | some r => r.ref_amount / r.token_amount

/-- Membership of `block_time` in the rolling window of the last `secs`
seconds before `now`. -/
def inWindow (now : Int) (secs : Int) (r : URow) : Bool :=
  decide (now - secs ≤ r.block_time)

/-- The per-row liquidity proxy of the CASE expressions: SOL reference
balances are normalized by 1e9 and priced, stablecoin balances by 1e6 at
face value. -/
def liqProxy (solPrice : ℚ) (r : URow) : ℚ :=
  if r.ref_type = "SOL" then r.ref_balance_raw / 1000000000 * solPrice
  else if r.ref_type = "STABLE" then r.ref_balance_raw / 1000000
  else 0

/-- The reference kind of a coin, per the CASE expressions of the legacy
unified CTE. -/
def refTypeOfCoin (c : String) : String :=
  if c = SOL_ADDRESS then "SOL"
  else if c = USDC ∨ c = USDT then "STABLE"
  else "OTHER"

/-- Distinct group keys in first-grouped order is not needed; ClickHouse
emits one row per distinct key, modelled via `List.dedup`. -/
def groupKeys (rows : List URow) : List String :=
  (rows.map (fun r => r.token)).dedup

theorem filter_ext {α : Type} {p q : α → Bool} :
    ∀ l : List α, (∀ a, a ∈ l → p a = q a) → l.filter p = l.filter q := by
  intro l
  induction l with
  | nil => intro _; rfl
  | cons x xs ih =>
    intro h
    rw [List.filter, List.filter, h x (List.mem_cons_self x xs)]
    rw [ih (fun a ha => h a (List.mem_cons_of_mem x ha))]

end Swaps

namespace La

open Swaps

/-- First arm of the legacy `unified_swaps` CTE
(`src/processors/liquidity_analyzer.py`): the chunk token as base coin, the
reference as quote coin; amounts and the post-swap reference balance taken
from the quote side. -/
def arm1 (chunk : List String) (s : Swap) : Option URow :=
  if s.base_coin ∈ chunk ∧
      (s.quote_coin = SOL_ADDRESS ∨ s.quote_coin = USDC ∨ s.quote_coin = USDT) ∧
      s.source ∈ allowedSources ∧ 0 < s.base_coin_amount ∧ 0 < s.quote_coin_amount then
    some { token := s.base_coin
           source := s.source
           base_coin := s.base_coin
           quote_coin := s.quote_coin
           block_time := s.block_time
           token_amount := s.base_coin_amount
           ref_amount := s.quote_coin_amount
           ref_type := refTypeOfCoin s.quote_coin
           base_pool_balance_after := s.base_pool_balance_after
           quote_pool_balance_after := s.quote_pool_balance_after
           ref_balance_raw := s.quote_pool_balance_after }
  else none

/-- Second arm of the legacy `unified_swaps` CTE: the chunk token as quote
coin, the reference as base coin. -/
def arm2 (chunk : List String) (s : Swap) : Option URow :=
  if s.quote_coin ∈ chunk ∧
      (s.base_coin = SOL_ADDRESS ∨ s.base_coin = USDC ∨ s.base_coin = USDT) ∧
      s.source ∈ allowedSources ∧ 0 < s.base_coin_amount ∧ 0 < s.quote_coin_amount then
    some { token := s.quote_coin
           source := s.source
           base_coin := s.base_coin
           quote_coin := s.quote_coin
           block_time := s.block_time
           token_amount := s.quote_coin_amount
           ref_amount := s.base_coin_amount
           ref_type := refTypeOfCoin s.base_coin
           base_pool_balance_after := s.base_pool_balance_after
           quote_pool_balance_after := s.quote_pool_balance_after
           ref_balance_raw := s.base_pool_balance_after }
  else none

/-- The legacy `unified_swaps` CTE: UNION ALL of the two arms. -/
def unifiedSwaps (chunk : List String) (swaps : List Swap) : List URow :=
  swaps.filterMap (arm1 chunk) ++ swaps.filterMap (arm2 chunk)

/-- One row of the legacy `best_pools` CTE: per token, the pool fields of the
row with the greatest liquidity proxy, the maximal proxy itself and the
earliest swap time. -/
structure BestPool where
  token : String
  best_source : String
  best_base_coin : String
  best_quote_coin : String
  best_base_balance : ℚ
  best_quote_balance : ℚ
  best_ref_type : String
  liquidity_usd : ℚ
  first_swap_time : Int
deriving Repr, DecidableEq

/-- The legacy `best_pools` group for one token: every `argMax` of the CTE
uses the same liquidity-proxy key, so they all come from the one row
selected by `argMaxBy`. -/
def bestPoolFor (solPrice : ℚ) (rows : List URow) (tok : String) : Option BestPool :=
  match argMaxBy (liqProxy solPrice)
      (rows.filter (fun r => decide (r.token = tok ∧ r.ref_type ≠ "OTHER"))) with
  | none => none
  | some b =>
    some { token := tok
           best_source := b.source
           best_base_coin := b.base_coin
           best_quote_coin := b.quote_coin
           best_base_balance := b.base_pool_balance_after
           best_quote_balance := b.quote_pool_balance_after
           best_ref_type := b.ref_type
           liquidity_usd := maxOf (liqProxy solPrice)
             (rows.filter (fun r => decide (r.token = tok ∧ r.ref_type ≠ "OTHER")))
           first_swap_time := minTimeOf (fun r => r.block_time)
             (rows.filter (fun r => decide (r.token = tok ∧ r.ref_type ≠ "OTHER"))) }

/-- The legacy `best_pools` CTE over all tokens. -/
def bestPools (solPrice : ℚ) (rows : List URow) : List BestPool :=
  (groupKeys (rows.filter (fun r => decide (r.ref_type ≠ "OTHER")))).filterMap
    (bestPoolFor solPrice rows)

/-- The aggregates of the legacy `pool_vwap` CTE for one token: VWAPs, last
price and trade counts computed only over the swaps of the best pool
(the INNER JOIN on token, source, base and quote coin). -/
structure PoolVwap where
  vwap_5m_raw : ℚ
  vwap_1h_raw : ℚ
  vwap_24h_raw : ℚ
  last_price_raw : ℚ
  trades_5m : Nat
  trades_1h : Nat
  trades_24h : Nat
deriving Repr, DecidableEq

/-- The rows joined into the legacy `pool_vwap` group of a token: only swaps
of the best pool. -/
def bestPoolRows (rows : List URow) (bp : BestPool) : List URow :=
  rows.filter (fun r => decide (r.token = bp.token ∧ r.source = bp.best_source ∧
    r.base_coin = bp.best_base_coin ∧ r.quote_coin = bp.best_quote_coin))

/-- The legacy `pool_vwap` aggregates for one best pool. -/
def poolVwapFor (now : Int) (rows : List URow) (bp : BestPool) : PoolVwap :=
  { vwap_5m_raw := sumIf (fun r => r.ref_amount) (inWindow now 300) (bestPoolRows rows bp)
      / max (sumIf (fun r => r.token_amount) (inWindow now 300) (bestPoolRows rows bp)) 1
    vwap_1h_raw := sumIf (fun r => r.ref_amount) (inWindow now 3600) (bestPoolRows rows bp)
      / max (sumIf (fun r => r.token_amount) (inWindow now 3600) (bestPoolRows rows bp)) 1
    vwap_24h_raw := sumIf (fun r => r.ref_amount) (inWindow now 86400) (bestPoolRows rows bp)
      / max (sumIf (fun r => r.token_amount) (inWindow now 86400) (bestPoolRows rows bp)) 1
    last_price_raw := lastPriceIf (fun _ => true) (bestPoolRows rows bp)
    trades_5m := countIf (inWindow now 300) (bestPoolRows rows bp)
    trades_1h := countIf (inWindow now 3600) (bestPoolRows rows bp)
    trades_24h := countIf (inWindow now 86400) (bestPoolRows rows bp) }

/-- The cascading `multiIf` of the final SELECT of the legacy consolidated
query, value side: 5-minute VWAP at 3 or more 5-minute trades, else 1-hour
VWAP at 5 or more 1-hour trades, else 24-hour VWAP at 5 or more 24-hour
trades, else a positive last price, else 0. -/
def cascadePriceRaw (pv : PoolVwap) : ℚ :=
  if 3 ≤ pv.trades_5m then pv.vwap_5m_raw
  else if 5 ≤ pv.trades_1h then pv.vwap_1h_raw
  else if 5 ≤ pv.trades_24h then pv.vwap_24h_raw
  else if 0 < pv.last_price_raw then pv.last_price_raw
  else 0

/-- The cascading `multiIf` of the final SELECT, method-label side. -/
def cascadeMethod (refType : String) (pv : PoolVwap) : String :=
  if 3 ≤ pv.trades_5m then refType ++ "_VWAP_5M"
  else if 5 ≤ pv.trades_1h then refType ++ "_VWAP_1H"
  else if 5 ≤ pv.trades_24h then refType ++ "_VWAP_24H"
  else if 0 < pv.last_price_raw then refType ++ "_LAST"
  else "NONE"

/-- One row of the final SELECT of the legacy consolidated query. -/
structure OutRow where
  token : String
  first_swap : Int
  latest_source : String
  latest_base_coin : String
  latest_quote_coin : String
  latest_base_balance : ℚ
  latest_quote_balance : ℚ
  price_raw : ℚ
  price_method : String
  price_reference_type : String
  latest_price_reference : String
  liquidity_usd : ℚ
  trades_5m : Nat
  trades_1h : Nat
  trades_24h : Nat
deriving Repr, DecidableEq

/-- The final SELECT row for one best pool. -/
def outRowFor (now : Int) (rows : List URow) (bp : BestPool) : OutRow :=
  { token := bp.token
    first_swap := bp.first_swap_time
    latest_source := bp.best_source
    latest_base_coin := bp.best_base_coin
    latest_quote_coin := bp.best_quote_coin
    latest_base_balance := bp.best_base_balance
    latest_quote_balance := bp.best_quote_balance
    price_raw := cascadePriceRaw (poolVwapFor now rows bp)
    price_method := cascadeMethod bp.best_ref_type (poolVwapFor now rows bp)
    price_reference_type := bp.best_ref_type
    latest_price_reference := if bp.best_ref_type = "SOL" then SOL_ADDRESS else USDC
    liquidity_usd := bp.liquidity_usd
    trades_5m := (poolVwapFor now rows bp).trades_5m
    trades_1h := (poolVwapFor now rows bp).trades_1h
    trades_24h := (poolVwapFor now rows bp).trades_24h }

/-- `_get_comprehensive_swap_data` of the legacy analyzer: unify, pick best
pools, compute best-pool VWAPs, cascade, and keep only rows with a positive
cascaded price. -/
def comprehensiveSwapData (chunk : List String) (swaps : List Swap) (now : Int)
    (solPrice : ℚ) : List OutRow :=
  ((bestPools solPrice (unifiedSwaps chunk swaps)).map
      (outRowFor now (unifiedSwaps chunk swaps))).filter
    (fun o => decide (0 < o.price_raw))

/-- C2: for every token in the consolidated price aggregation, the price
method is selected by the first satisfied rule of the cascade: 3 or more
5-minute trades give the 5-minute VWAP, else 5 or more 1-hour trades the
1-hour VWAP, else 5 or more 24-hour trades the 24-hour VWAP, else a positive
last price the LAST method, and otherwise the method is NONE with a raw
price of 0; in particular 2 trades in 5 minutes together with 5 trades in
1 hour select the 1-hour VWAP. -/
theorem cascade_first_satisfied_rule (refType : String) (pv : La.PoolVwap) :
    (3 ≤ pv.trades_5m →
      La.cascadePriceRaw pv = pv.vwap_5m_raw ∧
      La.cascadeMethod refType pv = refType ++ "_VWAP_5M") ∧
    (pv.trades_5m < 3 → 5 ≤ pv.trades_1h →
      La.cascadePriceRaw pv = pv.vwap_1h_raw ∧
      La.cascadeMethod refType pv = refType ++ "_VWAP_1H") ∧
    (pv.trades_5m < 3 → pv.trades_1h < 5 → 5 ≤ pv.trades_24h →
      La.cascadePriceRaw pv = pv.vwap_24h_raw ∧
      La.cascadeMethod refType pv = refType ++ "_VWAP_24H") ∧
    (pv.trades_5m < 3 → pv.trades_1h < 5 → pv.trades_24h < 5 → 0 < pv.last_price_raw →
      La.cascadePriceRaw pv = pv.last_price_raw ∧
      La.cascadeMethod refType pv = refType ++ "_LAST") ∧
    (pv.trades_5m < 3 → pv.trades_1h < 5 → pv.trades_24h < 5 → pv.last_price_raw ≤ 0 →
      La.cascadePriceRaw pv = 0 ∧ La.cascadeMethod refType pv = "NONE") ∧
    (pv.trades_5m = 2 → pv.trades_1h = 5 →
      La.cascadePriceRaw pv = pv.vwap_1h_raw ∧
      La.cascadeMethod refType pv = refType ++ "_VWAP_1H") := by
  refine ⟨?_, ?_, ?_, ?_, ?_, ?_⟩
  · intro h
    simp [La.cascadePriceRaw, La.cascadeMethod, h]
  · intro h1 h2
    have hn : ¬ 3 ≤ pv.trades_5m := by omega
    simp [La.cascadePriceRaw, La.cascadeMethod, hn, h2]
  · intro h1 h2 h3
    have hn1 : ¬ 3 ≤ pv.trades_5m := by omega
    have hn2 : ¬ 5 ≤ pv.trades_1h := by omega
    simp [La.cascadePriceRaw, La.cascadeMethod, hn1, hn2, h3]
  · intro h1 h2 h3 h4
    have hn1 : ¬ 3 ≤ pv.trades_5m := by omega
    have hn2 : ¬ 5 ≤ pv.trades_1h := by omega
    have hn3 : ¬ 5 ≤ pv.trades_24h := by omega
    simp [La.cascadePriceRaw, La.cascadeMethod, hn1, hn2, hn3, h4]
  · intro h1 h2 h3 h4
    have hn1 : ¬ 3 ≤ pv.trades_5m := by omega
    have hn2 : ¬ 5 ≤ pv.trades_1h := by omega
    have hn3 : ¬ 5 ≤ pv.trades_24h := by omega
    have hn4 : ¬ 0 < pv.last_price_raw := not_lt.mpr h4
    simp [La.cascadePriceRaw, La.cascadeMethod, hn1, hn2, hn3, hn4]
  · intro h1 h2
    have hn : ¬ 3 ≤ pv.trades_5m := by omega
    have h5 : 5 ≤ pv.trades_1h := by omega
    simp [La.cascadePriceRaw, La.cascadeMethod, hn, h5]

/-- Concrete cascade aggregates with 2 trades in 5 minutes and 5 in 1 hour. -/
def samplePoolVwap : La.PoolVwap :=
  { vwap_5m_raw := 10
    vwap_1h_raw := 20
    vwap_24h_raw := 30
    last_price_raw := 4
    trades_5m := 2
    trades_1h := 5
    trades_24h := 9 }

/-- Witness for C2: with trades_5m = 2 and trades_1h = 5 the 1-hour VWAP and
label are selected. -/
theorem cascade_first_satisfied_rule_witness :
    La.cascadePriceRaw samplePoolVwap = 20 ∧
    La.cascadeMethod "STABLE" samplePoolVwap = "STABLE_VWAP_1H" :=
  (cascade_first_satisfied_rule "STABLE" samplePoolVwap).2.2.2.2.2 rfl rfl

/-- Chunk of one token for the concrete aggregation runs. -/
def cexChunk : List String := ["TOK"]

/-- Query time of the concrete aggregation runs. -/
def cexNow : Int := 1000000

/-- One stablecoin-referenced swap in a deep USDC pool, inside the last
24 hours but outside the last hour. -/
def cexStableSwap : Swaps.Swap :=
  { source := "orca_swap"
    base_coin := "TOK"
    quote_coin := Swaps.USDC
    base_coin_amount := 1
    quote_coin_amount := 2
    base_pool_balance_after := 5
    quote_pool_balance_after := 1000000000
    block_time := 950000 }

/-- The i-th SOL-referenced swap in a shallower wrapped-SOL pool, inside the
last 24 hours but outside the last hour. -/
def cexSolSwap (i : Nat) : Swaps.Swap :=
  { source := "raydium_swap_v4"
    base_coin := "TOK"
    quote_coin := Swaps.SOL_ADDRESS
    base_coin_amount := 1
    quote_coin_amount := 1
    base_pool_balance_after := 7
    quote_pool_balance_after := 1000000000
    block_time := 960000 + i }

/-- Swap events: one stablecoin trade in the deepest pool and ten SOL trades
in a shallower pool. -/
def cexSwaps : List Swaps.Swap :=
  cexStableSwap :: (List.range 10).map cexSolSwap

/-- C3 counterexample: in the cited consolidated aggregation the token's
24-hour trades split 10 SOL against 1 STABLE, so the claimed
dominant-by-24h-trades selection over all qualifying swaps would price it by
the SOL 24-hour VWAP; the query instead takes the deepest pool's reference
kind (STABLE), aggregates only that pool's single trade, and emits
STABLE_LAST with a 24-hour trade count of 1. -/
theorem la_vwap_scope_and_dominance_cex :
    ((comprehensiveSwapData cexChunk cexSwaps cexNow 190).map
        (fun o => (o.token, o.price_method, o.price_reference_type, o.trades_24h)))
      = [("TOK", "STABLE_LAST", "STABLE", 1)] ∧
    Swaps.countIf
        (fun r => decide (r.token = "TOK" ∧ r.ref_type = "SOL") &&
          Swaps.inWindow cexNow 86400 r)
        (unifiedSwaps cexChunk cexSwaps) = 10 ∧
    Swaps.countIf
        (fun r => decide (r.token = "TOK" ∧ r.ref_type = "STABLE") &&
          Swaps.inWindow cexNow 86400 r)
        (unifiedSwaps cexChunk cexSwaps) = 1 ∧
    ("STABLE_LAST" : String) ≠ "SOL_VWAP_24H" := by
  refine ⟨by rfl, by rfl, by rfl, by decide⟩

end La

namespace Sla

open Swaps

/-- The single-scan `unified_swaps` CTE of the scheduled analyzer
(`src/solana/processors/liquidity_analyzer.py`): swaps of the last 7 days
where one side is a chunk token and the other a reference, token side chosen
by chunk membership of the base coin, reference kind by a `multiIf` over
both sides. -/
def arm (chunk : List String) (now : Int) (s : Swap) : Option URow :=
  if (now - 604800 ≤ s.block_time) ∧
      ((s.base_coin ∈ chunk ∧
          (s.quote_coin = SOL_ADDRESS ∨ s.quote_coin = USDC ∨ s.quote_coin = USDT)) ∨
        (s.quote_coin ∈ chunk ∧
          (s.base_coin = SOL_ADDRESS ∨ s.base_coin = USDC ∨ s.base_coin = USDT))) ∧
      s.source ∈ allowedSources ∧ 0 < s.base_coin_amount ∧ 0 < s.quote_coin_amount then
    some { token := if s.base_coin ∈ chunk then s.base_coin else s.quote_coin
           source := s.source
           base_coin := s.base_coin
           quote_coin := s.quote_coin
           block_time := s.block_time
           token_amount := if s.base_coin ∈ chunk then s.base_coin_amount else s.quote_coin_amount
           ref_amount := if s.base_coin ∈ chunk then s.quote_coin_amount else s.base_coin_amount
           ref_type :=
             if s.base_coin = SOL_ADDRESS ∨ s.quote_coin = SOL_ADDRESS then "SOL"
             else if s.base_coin = USDC ∨ s.base_coin = USDT ∨
                 s.quote_coin = USDC ∨ s.quote_coin = USDT then "STABLE"
             else "OTHER"
           base_pool_balance_after := s.base_pool_balance_after
           quote_pool_balance_after := s.quote_pool_balance_after
           ref_balance_raw :=
             if s.base_coin ∈ chunk then s.quote_pool_balance_after
             else s.base_pool_balance_after }
  else none

/-- The scheduled `unified_swaps` CTE. -/
def unifiedSwaps (chunk : List String) (now : Int) (swaps : List Swap) : List URow :=
  swaps.filterMap (arm chunk now)

/-- The `token_vwap` group of one token: all its unified rows with a
non-OTHER reference kind. -/
def tokenRows (rows : List URow) (tok : String) : List URow :=
  rows.filter (fun r => decide (r.token = tok ∧ r.ref_type ≠ "OTHER"))

/-- Row membership in a rolling window restricted to the STABLE kind. -/
def stableIn (now : Int) (secs : Int) (r : URow) : Bool :=
  inWindow now secs r && decide (r.ref_type = "STABLE")

/-- Row membership in a rolling window restricted to the SOL kind. -/
def solIn (now : Int) (secs : Int) (r : URow) : Bool :=
  inWindow now secs r && decide (r.ref_type = "SOL")

/-- One row of the scheduled `token_vwap` CTE: STABLE and SOL VWAPs, last
prices and trade counts aggregated independently over all qualifying rows of
the token, plus the deepest-pool fields. -/
structure TokenVwap where
  token : String
  stable_vwap_5m : ℚ
  stable_vwap_1h : ℚ
  stable_vwap_24h : ℚ
  stable_last : ℚ
  stable_trades_5m : Nat
  stable_trades_1h : Nat
  stable_trades_24h : Nat
  sol_vwap_5m : ℚ
  sol_vwap_1h : ℚ
  sol_vwap_24h : ℚ
  sol_last : ℚ
  sol_trades_5m : Nat
  sol_trades_1h : Nat
  sol_trades_24h : Nat
  best_source : String
  best_base_coin : String
  best_quote_coin : String
  best_base_balance : ℚ
  best_quote_balance : ℚ
  liquidity_usd : ℚ
  first_swap_time : Int
deriving Repr, DecidableEq

/-- The scheduled `token_vwap` aggregates for one token. -/
def tokenVwapFor (now : Int) (solPrice : ℚ) (rows : List URow) (tok : String) : TokenVwap :=
  { token := tok
    stable_vwap_5m := sumIf (fun r => r.ref_amount) (stableIn now 300) (tokenRows rows tok)
      / max (sumIf (fun r => r.token_amount) (stableIn now 300) (tokenRows rows tok)) 1
    stable_vwap_1h := sumIf (fun r => r.ref_amount) (stableIn now 3600) (tokenRows rows tok)
      / max (sumIf (fun r => r.token_amount) (stableIn now 3600) (tokenRows rows tok)) 1
    stable_vwap_24h := sumIf (fun r => r.ref_amount) (stableIn now 86400) (tokenRows rows tok)
      / max (sumIf (fun r => r.token_amount) (stableIn now 86400) (tokenRows rows tok)) 1
    stable_last := lastPriceIf (fun r => decide (r.ref_type = "STABLE")) (tokenRows rows tok)
    stable_trades_5m := countIf (stableIn now 300) (tokenRows rows tok)
    stable_trades_1h := countIf (stableIn now 3600) (tokenRows rows tok)
    stable_trades_24h := countIf (stableIn now 86400) (tokenRows rows tok)
    sol_vwap_5m := sumIf (fun r => r.ref_amount) (solIn now 300) (tokenRows rows tok)
      / max (sumIf (fun r => r.token_amount) (solIn now 300) (tokenRows rows tok)) 1
    sol_vwap_1h := sumIf (fun r => r.ref_amount) (solIn now 3600) (tokenRows rows tok)
      / max (sumIf (fun r => r.token_amount) (solIn now 3600) (tokenRows rows tok)) 1
    sol_vwap_24h := sumIf (fun r => r.ref_amount) (solIn now 86400) (tokenRows rows tok)
      / max (sumIf (fun r => r.token_amount) (solIn now 86400) (tokenRows rows tok)) 1
    sol_last := lastPriceIf (fun r => decide (r.ref_type = "SOL")) (tokenRows rows tok)
    sol_trades_5m := countIf (solIn now 300) (tokenRows rows tok)
    sol_trades_1h := countIf (solIn now 3600) (tokenRows rows tok)
    sol_trades_24h := countIf (solIn now 86400) (tokenRows rows tok)
    best_source := ((argMaxBy (liqProxy solPrice) (tokenRows rows tok)).map
      (fun r => r.source)).getD ""
    best_base_coin := ((argMaxBy (liqProxy solPrice) (tokenRows rows tok)).map
      (fun r => r.base_coin)).getD ""
    best_quote_coin := ((argMaxBy (liqProxy solPrice) (tokenRows rows tok)).map
      (fun r => r.quote_coin)).getD ""
    best_base_balance := ((argMaxBy (liqProxy solPrice) (tokenRows rows tok)).map
      (fun r => r.base_pool_balance_after)).getD 0
    best_quote_balance := ((argMaxBy (liqProxy solPrice) (tokenRows rows tok)).map
      (fun r => r.quote_pool_balance_after)).getD 0
    liquidity_usd := maxOf (liqProxy solPrice) (tokenRows rows tok)
    first_swap_time := minTimeOf (fun r => r.block_time) (tokenRows rows tok) }

/-- The `price_raw` `multiIf` of the scheduled final SELECT: four SOL rules
guarded by SOL having strictly more 24-hour trades, four STABLE rules guarded
by STABLE having at least as many, then the two last-price fallbacks. -/
def selectPriceRaw (tv : TokenVwap) : ℚ :=
  if tv.stable_trades_24h < tv.sol_trades_24h ∧ 3 ≤ tv.sol_trades_5m then tv.sol_vwap_5m
  else if tv.stable_trades_24h < tv.sol_trades_24h ∧ 5 ≤ tv.sol_trades_1h then tv.sol_vwap_1h
  else if tv.stable_trades_24h < tv.sol_trades_24h ∧ 5 ≤ tv.sol_trades_24h then tv.sol_vwap_24h
  else if tv.stable_trades_24h < tv.sol_trades_24h ∧ 0 < tv.sol_last then tv.sol_last
  else if tv.sol_trades_24h ≤ tv.stable_trades_24h ∧ 3 ≤ tv.stable_trades_5m then tv.stable_vwap_5m
  else if tv.sol_trades_24h ≤ tv.stable_trades_24h ∧ 5 ≤ tv.stable_trades_1h then tv.stable_vwap_1h
  else if tv.sol_trades_24h ≤ tv.stable_trades_24h ∧ 5 ≤ tv.stable_trades_24h then tv.stable_vwap_24h
  else if tv.sol_trades_24h ≤ tv.stable_trades_24h ∧ 0 < tv.stable_last then tv.stable_last
  else if 0 < tv.sol_last then tv.sol_last
  else if 0 < tv.stable_last then tv.stable_last
  else 0

/-- The `price_method` `multiIf` of the scheduled final SELECT. -/
def selectMethod (tv : TokenVwap) : String :=
  if tv.stable_trades_24h < tv.sol_trades_24h ∧ 3 ≤ tv.sol_trades_5m then "SOL_VWAP_5M"
  else if tv.stable_trades_24h < tv.sol_trades_24h ∧ 5 ≤ tv.sol_trades_1h then "SOL_VWAP_1H"
  else if tv.stable_trades_24h < tv.sol_trades_24h ∧ 5 ≤ tv.sol_trades_24h then "SOL_VWAP_24H"
  else if tv.stable_trades_24h < tv.sol_trades_24h ∧ 0 < tv.sol_last then "SOL_LAST"
  else if tv.sol_trades_24h ≤ tv.stable_trades_24h ∧ 3 ≤ tv.stable_trades_5m then "STABLE_VWAP_5M"
  else if tv.sol_trades_24h ≤ tv.stable_trades_24h ∧ 5 ≤ tv.stable_trades_1h then "STABLE_VWAP_1H"
  else if tv.sol_trades_24h ≤ tv.stable_trades_24h ∧ 5 ≤ tv.stable_trades_24h then "STABLE_VWAP_24H"
  else if tv.sol_trades_24h ≤ tv.stable_trades_24h ∧ 0 < tv.stable_last then "STABLE_LAST"
  else if 0 < tv.sol_last then "SOL_LAST"
  else if 0 < tv.stable_last then "STABLE_LAST"
  else "NONE"

/-- Modelled from the spec wording of the claim: determine the dominant
reference kind as the one with more 24-hour trades (ties favor STABLE), apply
the cascade on that kind, and when no rule of the dominant kind is satisfied
fall back to the other kind's positive last price; value side. -/
def specSelectPriceRaw (tv : TokenVwap) : ℚ :=
  if tv.stable_trades_24h < tv.sol_trades_24h then
    if 3 ≤ tv.sol_trades_5m then tv.sol_vwap_5m
    else if 5 ≤ tv.sol_trades_1h then tv.sol_vwap_1h
    else if 5 ≤ tv.sol_trades_24h then tv.sol_vwap_24h
    else if 0 < tv.sol_last then tv.sol_last
    else if 0 < tv.stable_last then tv.stable_last
    else 0
  else
    if 3 ≤ tv.stable_trades_5m then tv.stable_vwap_5m
    else if 5 ≤ tv.stable_trades_1h then tv.stable_vwap_1h
    else if 5 ≤ tv.stable_trades_24h then tv.stable_vwap_24h
    else if 0 < tv.stable_last then tv.stable_last
    else if 0 < tv.sol_last then tv.sol_last
    else 0

/-- Modelled from the spec wording of the claim, method-label side. -/
def specSelectMethod (tv : TokenVwap) : String :=
  if tv.stable_trades_24h < tv.sol_trades_24h then
    if 3 ≤ tv.sol_trades_5m then "SOL_VWAP_5M"
    else if 5 ≤ tv.sol_trades_1h then "SOL_VWAP_1H"
    else if 5 ≤ tv.sol_trades_24h then "SOL_VWAP_24H"
    else if 0 < tv.sol_last then "SOL_LAST"
    else if 0 < tv.stable_last then "STABLE_LAST"
    else "NONE"
  else
    if 3 ≤ tv.stable_trades_5m then "STABLE_VWAP_5M"
    else if 5 ≤ tv.stable_trades_1h then "STABLE_VWAP_1H"
    else if 5 ≤ tv.stable_trades_24h then "STABLE_VWAP_24H"
    else if 0 < tv.stable_last then "STABLE_LAST"
    else if 0 < tv.sol_last then "SOL_LAST"
    else "NONE"

/-- C3 amended: in the scheduled analyzer the selection `multiIf` implements
precisely the dominant-kind rule (more 24-hour trades wins, ties favor
STABLE), cascading within the dominant kind and falling back to the other
kind's positive last price; and the per-kind trade counts it consumes are
aggregated over all of the token's qualifying unified rows, not only the
deepest pool's. -/
theorem scheduled_select_is_dominant_cascade :
    (∀ tv : TokenVwap,
      selectPriceRaw tv = specSelectPriceRaw tv ∧ selectMethod tv = specSelectMethod tv) ∧
    (∀ (chunk : List String) (now : Int) (solPrice : ℚ) (swaps : List Swap) (tok : String),
      (tokenVwapFor now solPrice (unifiedSwaps chunk now swaps) tok).sol_trades_24h
        = countIf (fun r => decide (r.token = tok ∧ r.ref_type = "SOL") &&
            inWindow now 86400 r) (unifiedSwaps chunk now swaps) ∧
      (tokenVwapFor now solPrice (unifiedSwaps chunk now swaps) tok).stable_trades_24h
        = countIf (fun r => decide (r.token = tok ∧ r.ref_type = "STABLE") &&
            inWindow now 86400 r) (unifiedSwaps chunk now swaps)) := by
  constructor
  · intro tv
    constructor
    · rw [selectPriceRaw, specSelectPriceRaw]
      by_cases hA : tv.stable_trades_24h < tv.sol_trades_24h
      · have hB : ¬ tv.sol_trades_24h ≤ tv.stable_trades_24h := by omega
        simp only [hA, hB, true_and, false_and, if_false, if_true]
        split_ifs <;> rfl
      · have hB : tv.sol_trades_24h ≤ tv.stable_trades_24h := by omega
        simp only [hA, hB, true_and, false_and, if_false, if_true]
        split_ifs <;> rfl
    · rw [selectMethod, specSelectMethod]
      by_cases hA : tv.stable_trades_24h < tv.sol_trades_24h
      · have hB : ¬ tv.sol_trades_24h ≤ tv.stable_trades_24h := by omega
        simp only [hA, hB, true_and, false_and, if_false, if_true]
        split_ifs <;> rfl
      · have hB : tv.sol_trades_24h ≤ tv.stable_trades_24h := by omega
        simp only [hA, hB, true_and, false_and, if_false, if_true]
        split_ifs <;> rfl
  · intro chunk now solPrice swaps tok
    constructor
    · show countIf (solIn now 86400) (tokenRows (unifiedSwaps chunk now swaps) tok) = _
      rw [countIf, countIf, tokenRows, List.filter_filter]
      apply congrArg
      apply filter_ext
      intro r _
      by_cases h1 : r.token = tok
      · by_cases h2 : r.ref_type = "SOL"
        · have h3 : r.ref_type ≠ "OTHER" := by rw [h2]; decide
          simp [solIn, h1, h2, h3, Bool.and_comm]
        · simp [solIn, h1, h2]
      · simp [solIn, h1]
    · show countIf (stableIn now 86400) (tokenRows (unifiedSwaps chunk now swaps) tok) = _
      rw [countIf, countIf, tokenRows, List.filter_filter]
      apply congrArg
      apply filter_ext
      intro r _
      by_cases h1 : r.token = tok
      · by_cases h2 : r.ref_type = "STABLE"
        · have h3 : r.ref_type ≠ "OTHER" := by rw [h2]; decide
          simp [stableIn, h1, h2, h3, Bool.and_comm]
        · simp [stableIn, h1, h2]
      · simp [stableIn, h1]

end Sla

namespace MainW

/-- Polars `fill_null(0)` on a nullable numeric column. -/
def fillNull0 (q : Option ℚ) : ℚ := q.getD 0

/-- The hard-coded SOL price constant of `src/core/main.py`. -/
def SOL_PRICE_USD : ℚ := 190

/-- One pool row of the `pool_data` list handed to
`_process_pools_and_metrics` (the five columns of the explicit schema). -/
structure PoolRow where
  canonical_source : String
  base_coin : String
  quote_coin : String
  last_base_balance : ℚ
  last_quote_balance : ℚ
deriving Repr, DecidableEq

/-- The `liquidity_usd` expression of `_process_pools_and_metrics`: the raw
(not decimal-normalized) balance of the SOL or stablecoin side, multiplied by
the hard-coded SOL price for SOL references and by 2 in every case. -/
def poolLiquidityUsd (p : PoolRow) : ℚ :=
  if p.base_coin = Swaps.SOL_ADDRESS then p.last_base_balance * SOL_PRICE_USD * 2
  else if p.quote_coin = Swaps.SOL_ADDRESS then p.last_quote_balance * SOL_PRICE_USD * 2
  else if p.base_coin = Swaps.USDC ∨ p.base_coin = Swaps.USDT then p.last_base_balance * 2
  else if p.quote_coin = Swaps.USDC ∨ p.quote_coin = Swaps.USDT then p.last_quote_balance * 2
  else 0

/-- `largest_lp_pool_usd` of a token in `_process_pools_and_metrics`: the
pools are mapped once keyed by base coin and once keyed by quote coin, the
two frames concatenated, grouped by mint with `max(liquidity_usd)`, and a
token without pools gets 0 (`fill_null(0.0)` after the left join). -/
def largestLpPoolUsd (pools : List PoolRow) (mint : String) : ℚ :=
  Swaps.maxOf poolLiquidityUsd
    ((pools.filter (fun p => decide (p.base_coin = mint))) ++
      (pools.filter (fun p => decide (p.quote_coin = mint))))

/-- The supply divisor of `_process_pools_and_metrics`: `10.0 ** decimals`
when decimals are present, `1e9` otherwise. -/
def decimalsDivisor : Option Nat → ℚ
  | some d => (10 : ℚ) ^ d
  | none => 1000000000

/-- The per-token metric columns computed by `_process_pools_and_metrics`
after the fill_null steps: supply and burned from the raw mint and burn
totals, market cap as price times supply, and the largest-pool liquidity. -/
structure TokenMetrics where
  supply : ℚ
  burned : ℚ
  price_usd : ℚ
  market_cap_usd : ℚ
  largest_lp_pool_usd : ℚ
deriving Repr, DecidableEq

/-- The metric computation of `_process_pools_and_metrics` for one token. -/
def processTokenMetrics (pools : List PoolRow) (mint : String) (decimals : Option Nat)
    (total_minted total_burned price_usd : Option ℚ) : TokenMetrics :=
  { supply := (fillNull0 total_minted - fillNull0 total_burned) / decimalsDivisor decimals
    burned := fillNull0 total_burned / decimalsDivisor decimals
    price_usd := fillNull0 price_usd
    market_cap_usd := fillNull0 price_usd *
      ((fillNull0 total_minted - fillNull0 total_burned) / decimalsDivisor decimals)
    largest_lp_pool_usd := largestLpPoolUsd pools mint }

theorem foldl_max_nonneg {α : Type} (f : α → ℚ) :
    ∀ (xs : List α) (acc : ℚ), 0 ≤ acc →
      0 ≤ xs.foldl (fun a y => max a (f y)) acc := by
  intro xs
  induction xs with
  | nil => intro acc h; exact h
  | cons y ys ih =>
    intro acc h
    rw [List.foldl_cons]
    exact ih _ (le_trans h (le_max_left _ _))

theorem maxOf_nonneg {α : Type} (f : α → ℚ) (l : List α)
    (h : ∀ x, x ∈ l → 0 ≤ f x) : 0 ≤ Swaps.maxOf f l := by
  cases l with
  | nil => exact le_refl 0
  | cons x xs => exact foldl_max_nonneg f xs (f x) (h x (List.mem_cons_self x xs))

end MainW

namespace Evm

/-- `EvmLiquidityProxy.get_liquidity_proxy_for_chunk`: not implemented for
EVM; returns an empty frame. -/
def liquidityProxyForChunk : List (String × ℚ) := []

/-- The `largest_lp_pool_usd` reaching an EVM output row: left join of the
chunk tokens with the (empty) liquidity frame, then `fill_null(0.0)`. -/
def evmLargestLp (mint : String) : ℚ :=
  MainW.fillNull0 ((liquidityProxyForChunk.find? (fun p => p.1 == mint)).map (fun p => p.2))

/-- The supply expression of `EvmTokenAggregationWorker._process_chunk`:
`total_supply_raw / 10 ** decimals_final` when both are present, 0
otherwise. -/
def evmSupply (total_supply_raw : Option ℚ) (decimals_final : Option Nat) : ℚ :=
  match total_supply_raw, decimals_final with
  | some raw, some d => raw / (10 : ℚ) ^ d
  | _, _ => 0

/-- The metric columns of one EVM output row. -/
structure EvmOut where
  mint : String
  chain : String
  decimals : Option Nat
  supply : ℚ
  price_usd : ℚ
  market_cap_usd : ℚ
  largest_lp_pool_usd : ℚ
deriving Repr, DecidableEq

/-- The column computation of `EvmTokenAggregationWorker._process_chunk` for
one token: decimals coalesced from ClickHouse over RPC, the supply
expression, price and liquidity filled with 0 for null, market cap as price
times supply. -/
def processChunkRow (chain mint : String) (decimals_ch decimals_rpc : Option Nat)
    (total_supply_raw price_usd : Option ℚ) : EvmOut :=
  { mint := mint
    chain := chain
    decimals := coalesce decimals_ch decimals_rpc
    supply := evmSupply total_supply_raw (coalesce decimals_ch decimals_rpc)
    price_usd := MainW.fillNull0 price_usd
    market_cap_usd := MainW.fillNull0 price_usd *
      evmSupply total_supply_raw (coalesce decimals_ch decimals_rpc)
    largest_lp_pool_usd := evmLargestLp mint }

/-- The price decision of `EvmPriceCalculator.get_prices_for_chunk` for one
token: a positive stablecoin VWAP is used directly; otherwise a positive
native VWAP is converted only when the native USD price was obtained from the
keyed store and is positive; otherwise the price is 0 with method NONE. -/
def evmPriceDecision (stable_price native_price : ℚ) (native_price_usd : Option ℚ) :
    ℚ × String :=
  if 0 < stable_price then (stable_price, "STABLE_VWAP")
  else
    match native_price_usd with
    | some u => if 0 < native_price ∧ 0 < u then (native_price * u, "NATIVE_VWAP")
                else (0, "NONE")
    | none => (0, "NONE")

end Evm

namespace PriceCalc

/-- The hard-coded module constant of `src/processors/price_calculator.py`,
assigned to `self.sol_price_usd` in `__init__` and returned by
`get_sol_price`. -/
def SOL_PRICE_USD : ℚ := 190

/-- `PriceCalculator.calculate_prices_batch`: each token's last price in SOL
is multiplied by `get_sol_price()`, which yields the hard-coded constant; a
missing last price gives 0. -/
def calculatePricesBatch (lastPricesInSol : List (String × Option ℚ)) :
    List (String × ℚ) :=
  lastPricesInSol.map (fun p =>
    match p.2 with
    | none => (p.1, 0)
    | some q => (p.1, q * SOL_PRICE_USD))

end PriceCalc

/-- A pool observation as the claim describes it: the reference side's kind,
raw balance and decimals. -/
structure PoolObs where
  venue : String
  ref_kind : String
  ref_balance_raw : ℚ
  ref_decimals : Nat
deriving Repr, DecidableEq

/-- Modelled from the spec: the claimed USD liquidity proxy of a pool
observation, the reference-side balance normalized by the reference's
decimals, times the native USD price for NATIVE references and at face value
for STABLE references. -/
def claimProxy (nativePrice : ℚ) (o : PoolObs) : ℚ :=
  if o.ref_kind = "NATIVE" then o.ref_balance_raw / (10 : ℚ) ^ o.ref_decimals * nativePrice
  else o.ref_balance_raw / (10 : ℚ) ^ o.ref_decimals

/-- Modelled from the spec: the claimed largest pool value, the maximum of
the proxy across the token's qualifying pool observations. -/
def claimLargest (nativePrice : ℚ) (obs : List PoolObs) : ℚ :=
  Swaps.maxOf (claimProxy nativePrice) obs

/-- A pool whose reference side is one wrapped SOL (raw balance 1e9 at 9
decimals). -/
def solPoolRow : MainW.PoolRow :=
  { canonical_source := "orca_swap"
    base_coin := Swaps.SOL_ADDRESS
    quote_coin := "TOK"
    last_base_balance := 1000000000
    last_quote_balance := 500 }

/-- C4 counterexample: for a pool holding one wrapped SOL (raw 1e9, 9
decimals, native price 190) the claimed decimal-normalized proxy is 190,
but the Solana worker computes 1e9 × 190 × 2 = 3.8e11 (raw balance, doubled,
hard-coded price), and the EVM worker computes 0 (stub); neither equals the
claimed maximum proxy. -/
theorem largest_lp_pool_proxy_cex :
    MainW.largestLpPoolUsd [solPoolRow] "TOK" = 380000000000 ∧
    claimLargest 190
        [{ venue := "orca_swap", ref_kind := "NATIVE",
           ref_balance_raw := 1000000000, ref_decimals := 9 }] = 190 ∧
    ((380000000000 : ℚ) ≠ 190) ∧
    Evm.evmLargestLp "TOK" = 0 := by
  refine ⟨by decide, by decide, by decide, by decide⟩

theorem foldl_max_le {α : Type} (f : α → ℚ) :
    ∀ (xs : List α) (acc : ℚ), acc ≤ xs.foldl (fun a y => max a (f y)) acc := by
  intro xs
  induction xs with
  | nil => intro acc; exact le_refl acc
  | cons y ys ih =>
    intro acc
    rw [List.foldl_cons]
    exact le_trans (le_max_left _ _) (ih _)

theorem foldl_max_mem_le {α : Type} (f : α → ℚ) :
    ∀ (xs : List α) (acc : ℚ) (x : α), x ∈ xs →
      f x ≤ xs.foldl (fun a y => max a (f y)) acc := by
  intro xs
  induction xs with
  | nil => intro acc x hx; cases hx
  | cons y ys ih =>
    intro acc x hx
    rw [List.foldl_cons]
    rcases List.mem_cons.mp hx with h | h
    · rw [h]
      exact le_trans (le_max_right _ _) (foldl_max_le f ys _)
    · exact ih _ x h

theorem maxOf_is_upper_bound {α : Type} (f : α → ℚ) (l : List α) (x : α)
    (hx : x ∈ l) : f x ≤ Swaps.maxOf f l := by
  cases l with
  | nil => cases hx
  | cons y ys =>
    rw [Swaps.maxOf]
    rcases List.mem_cons.mp hx with h | h
    · rw [h]
      exact foldl_max_le f ys (f y)
    · exact foldl_max_mem_le f ys (f y) x h

/-- C4 amended: largest_lp_pool_usd is non-negative given non-negative pool
balances; on the EVM worker it is always 0 (the liquidity proxy is an
unimplemented stub returning no rows); on the Solana in-memory worker it
bounds from above every pool value the code computes, which is the raw
(not decimal-normalized) reference-side balance times 2, times the
hard-coded SOL price 190.0 for SOL references. -/
theorem largest_lp_pool_amended (pools : List MainW.PoolRow) (mint : String)
    (hb : ∀ p, p ∈ pools → 0 ≤ p.last_base_balance ∧ 0 ≤ p.last_quote_balance) :
    0 ≤ MainW.largestLpPoolUsd pools mint ∧
    (∀ p, p ∈ pools → (p.base_coin = mint ∨ p.quote_coin = mint) →
      MainW.poolLiquidityUsd p ≤ MainW.largestLpPoolUsd pools mint) ∧
    (∀ m : String, Evm.evmLargestLp m = 0) := by
  have hliq : ∀ p, p ∈ pools → 0 ≤ MainW.poolLiquidityUsd p := by
    intro p hp
    rcases hb p hp with ⟨h1, h2⟩
    rw [MainW.poolLiquidityUsd]
    split
    · exact mul_nonneg (mul_nonneg h1 (by decide)) (by decide)
    · split
      · exact mul_nonneg (mul_nonneg h2 (by decide)) (by decide)
      · split
        · exact mul_nonneg h1 (by decide)
        · split
          · exact mul_nonneg h2 (by decide)
          · exact le_refl 0
  refine ⟨?_, ?_, fun m => rfl⟩
  · apply MainW.maxOf_nonneg
    intro p hp
    rcases List.mem_append.mp hp with h | h
    · exact hliq p (List.mem_filter.mp h).1
    · exact hliq p (List.mem_filter.mp h).1
  · intro p hp hside
    apply maxOf_is_upper_bound
    rcases hside with h | h
    · exact List.mem_append_left _ (List.mem_filter.mpr ⟨hp, by simp [h]⟩)
    · exact List.mem_append_right _ (List.mem_filter.mpr ⟨hp, by simp [h]⟩)

/-- Witness for the amended C4 statement: the single SOL pool yields a
non-negative largest_lp_pool_usd bounding its own value, and an EVM token
gets 0. -/
theorem largest_lp_pool_amended_witness :
    0 ≤ MainW.largestLpPoolUsd [solPoolRow] "TOK" ∧
    MainW.poolLiquidityUsd solPoolRow ≤ MainW.largestLpPoolUsd [solPoolRow] "TOK" ∧
    Evm.evmLargestLp "0xabc" = 0 := by
  have h := largest_lp_pool_amended [solPoolRow] "TOK"
    (by intro p hp; rw [List.mem_singleton] at hp; rw [hp]; exact ⟨by decide, by decide⟩)
  exact ⟨h.1, h.2.1 solPoolRow (List.mem_singleton_self _) (Or.inr rfl), h.2.2 "0xabc"⟩

/-- C5 counterexample: on the Solana in-memory worker a token with unknown
decimals, 5e9 raw minted and 6e9 raw burned gets supply −1 (divided by the
1e9 fallback, not set to 0) and market cap −1; the claim requires supply 0
when decimals are unknown and forbids negative supply. -/
theorem main_supply_unknown_decimals_cex :
    (MainW.processTokenMetrics [] "TOK" none (some 5000000000) (some 6000000000)
        (some 1)).supply = -1 ∧
    ((-1 : ℚ) < 0) ∧
    (MainW.processTokenMetrics [] "TOK" none (some 5000000000) (some 6000000000)
        (some 1)).market_cap_usd = -1 := by
  refine ⟨by decide, by decide, by decide⟩

/-- C5 amended: on the EVM worker the output supply equals raw supply over
10^decimals when both are present, is 0 when either is missing, is
non-negative for non-negative raw supply, and market_cap_usd is price times
supply; the Solana in-memory worker instead divides minted minus burned by
10^decimals with a 1e9 fallback divisor when decimals are unknown and
without clamping, with market_cap_usd still price times supply. -/
theorem supply_and_market_cap_amended :
    (∀ (chain mint : String) (dch drpc : Option Nat) (raw price : Option ℚ)
        (rawv : ℚ) (d : Nat), raw = some rawv → coalesce dch drpc = some d →
      (Evm.processChunkRow chain mint dch drpc raw price).supply = rawv / (10 : ℚ) ^ d) ∧
    (∀ (chain mint : String) (dch drpc : Option Nat) (raw price : Option ℚ),
      coalesce dch drpc = none ∨ raw = none →
      (Evm.processChunkRow chain mint dch drpc raw price).supply = 0) ∧
    (∀ (chain mint : String) (dch drpc : Option Nat) (raw price : Option ℚ),
      (∀ rawv, raw = some rawv → 0 ≤ rawv) →
      0 ≤ (Evm.processChunkRow chain mint dch drpc raw price).supply) ∧
    (∀ (chain mint : String) (dch drpc : Option Nat) (raw price : Option ℚ),
      (Evm.processChunkRow chain mint dch drpc raw price).market_cap_usd
        = (Evm.processChunkRow chain mint dch drpc raw price).price_usd *
          (Evm.processChunkRow chain mint dch drpc raw price).supply) ∧
    (∀ (pools : List MainW.PoolRow) (mint : String) (decimals : Option Nat)
        (minted burned price : Option ℚ),
      (MainW.processTokenMetrics pools mint decimals minted burned price).supply
        = (MainW.fillNull0 minted - MainW.fillNull0 burned) / MainW.decimalsDivisor decimals ∧
      (MainW.processTokenMetrics pools mint decimals minted burned price).market_cap_usd
        = (MainW.processTokenMetrics pools mint decimals minted burned price).price_usd *
          (MainW.processTokenMetrics pools mint decimals minted burned price).supply) := by
  refine ⟨?_, ?_, ?_, ?_, ?_⟩
  · intro chain mint dch drpc raw price rawv d hraw hd
    show Evm.evmSupply raw (coalesce dch drpc) = rawv / (10 : ℚ) ^ d
    rw [hraw, hd]
    rfl
  · intro chain mint dch drpc raw price h
    show Evm.evmSupply raw (coalesce dch drpc) = 0
    rcases h with h | h
    · rw [h]
      cases raw <;> rfl
    · rw [h]
      rfl
  · intro chain mint dch drpc raw price h
    show 0 ≤ Evm.evmSupply raw (coalesce dch drpc)
    cases raw with
    | none => exact le_of_eq rfl
    | some rawv =>
      cases hcd : coalesce dch drpc with
      | none =>
        show (0 : ℚ) ≤ Evm.evmSupply (some rawv) none
        exact le_of_eq rfl
      | some d =>
        show (0 : ℚ) ≤ rawv / (10 : ℚ) ^ d
        have hr : 0 ≤ rawv := h rawv rfl
        exact div_nonneg hr (by positivity)
  · intro chain mint dch drpc raw price
    rfl
  · intro pools mint decimals minted burned price
    exact ⟨rfl, rfl⟩

/-- Witness for the amended C5 statement at concrete inputs: raw supply 5e9
with 9 decimals gives supply 5e9 / 10^9, and missing decimals give 0. -/
theorem supply_and_market_cap_amended_witness :
    (Evm.processChunkRow "ethereum" "0xt" (some 9) none (some 5000000000)
        (some 2)).supply = (5000000000 : ℚ) / (10 : ℚ) ^ (9 : Nat) ∧
    (Evm.processChunkRow "ethereum" "0xt" none none (some 5000000000)
        (some 2)).supply = 0 ∧
    0 ≤ (Evm.processChunkRow "ethereum" "0xt" (some 9) none (some 5000000000)
        (some 2)).supply :=
  ⟨supply_and_market_cap_amended.1 "ethereum" "0xt" (some 9) none (some 5000000000)
      (some 2) 5000000000 9 rfl rfl,
    supply_and_market_cap_amended.2.1 "ethereum" "0xt" none none (some 5000000000)
      (some 2) (Or.inl rfl),
    supply_and_market_cap_amended.2.2.1 "ethereum" "0xt" (some 9) none (some 5000000000)
      (some 2) (fun rawv h => by
        rw [Option.some_inj] at h
        rw [← h]
        decide)⟩

/-- C6 counterexample: with no keyed price store at all, the legacy
`PriceCalculator.calculate_prices_batch` prices a token whose only reference
is SOL at its last SOL price times the hard-coded 190.0 (0.01 SOL becomes
1.90 USD, not 0), and the legacy worker's pool liquidity for a SOL-side
balance of 1 is 1 × 190 × 2 = 380: the hard-coded fallback is substituted in
both pricing and liquidity computation. -/
theorem hardcoded_sol_price_cex :
    PriceCalc.calculatePricesBatch [("TOK", some (1 / 100))] = [("TOK", 19 / 10)] ∧
    ((19 : ℚ) / 10 ≠ 0) ∧
    MainW.poolLiquidityUsd
      { canonical_source := "p"
        base_coin := Swaps.SOL_ADDRESS
        quote_coin := "TOK"
        last_base_balance := 1
        last_quote_balance := 3 } = 380 := by
  refine ⟨by decide, by decide, by decide⟩

/-- C6 amended: when the native USD price is unavailable from the keyed
store (or non-positive), the EVM calculator reports price 0 with method NONE
for every token without a positive stablecoin VWAP, substituting no numeric
fallback; the legacy Solana modules, however, hard-code SOL_PRICE_USD =
190.0, multiplying the last SOL price by it in pricing and using it in pool
liquidity. -/
theorem native_price_missing_amended :
    (∀ stable native : ℚ, stable ≤ 0 →
      Evm.evmPriceDecision stable native none = (0, "NONE")) ∧
    (∀ stable native u : ℚ, stable ≤ 0 → u ≤ 0 →
      Evm.evmPriceDecision stable native (some u) = (0, "NONE")) ∧
    (∀ lastP : ℚ, PriceCalc.calculatePricesBatch [("t", some lastP)]
      = [("t", lastP * PriceCalc.SOL_PRICE_USD)]) := by
  refine ⟨?_, ?_, fun lastP => rfl⟩
  · intro stable native h
    rw [Evm.evmPriceDecision, if_neg (not_lt.mpr h)]
  · intro stable native u hs hu
    rw [Evm.evmPriceDecision, if_neg (not_lt.mpr hs)]
    show (if 0 < native ∧ 0 < u then (native * u, "NATIVE_VWAP") else ((0 : ℚ), "NONE"))
      = ((0 : ℚ), "NONE")
    rw [if_neg]
    intro hc
    exact absurd hc.2 (not_lt.mpr hu)

/-- Witness for the amended C6 statement: a token with no stablecoin VWAP
and a positive native VWAP gets price 0 and method NONE when the store has
no native price. -/
theorem native_price_missing_amended_witness :
    Evm.evmPriceDecision 0 5 none = (0, "NONE") :=
  native_price_missing_amended.1 0 5 (le_refl 0)

namespace WSched

theorem runInsertBatches_prefix (failAt : Nat → Bool) :
    ∀ (k : Nat) (batches : List (List Pg.StoredRow)) (t : Pg.Table) (i total : Nat),
      (∀ j, j < k → failAt (i + j) = false) → failAt (i + k) = true →
      k < batches.length →
      Pg.runInsertBatches failAt t batches i total
        = ((batches.take k).foldl (fun acc b => b.foldl Pg.execInsertUpsert acc) t,
            Except.error ()) := by
  intro k
  induction k with
  | zero =>
    intro batches t i total hpre hk hlen
    cases batches with
    | nil => simp at hlen
    | cons b rest =>
      rw [Nat.add_zero] at hk
      rw [Pg.runInsertBatches, hk]
      simp
  | succ k ih =>
    intro batches t i total hpre hk hlen
    cases batches with
    | nil => simp at hlen
    | cons b rest =>
      rw [Pg.runInsertBatches]
      have h0 : failAt i = false := by
        have h := hpre 0 (Nat.succ_pos k)
        rwa [Nat.add_zero] at h
      rw [h0]
      simp only [Bool.false_eq_true, if_false]
      have hpre2 : ∀ j, j < k → failAt (i + 1 + j) = false := by
        intro j hj
        have h := hpre (j + 1) (Nat.succ_lt_succ hj)
        rwa [show i + (j + 1) = i + 1 + j by omega] at h
      have hk2 : failAt (i + 1 + k) = true := by
        rwa [show i + 1 + k = i + (k + 1) by omega]
      have hlen2 : k < rest.length := by
        simp at hlen
        omega
      rw [ih rest (b.foldl Pg.execInsertUpsert t) (i + 1) (total + b.length) hpre2 hk2 hlen2]
      rw [List.take_succ_cons, List.foldl_cons]

/-- `final_df.unique(subset=['mint'], keep='last')`: a row survives exactly
when no later row carries the same mint. -/
def dedupKeepLast : List Pg.InputRow → List Pg.InputRow
  | [] => []
  | r :: rest =>
    if rest.any (fun x => x.mint == r.mint) then dedupKeepLast rest
    else r :: dedupKeepLast rest

/-- The save step of `process_view_tokens`: the upsert of the deduplicated
frame runs inside try/except; a failure is logged ("Results printed but not
saved to database") and swallowed, reported as the Boolean. -/
def processSave (t : Pg.Table) (df : List Pg.InputRow) (viewName : String)
    (time : Int) (failAt : Nat → Bool) : Pg.Table × Bool :=
  match Pg.insertTokenMetricsBatch failAt t (dedupKeepLast df) viewName time 1000 with
  | (t2, Except.ok _) => (t2, true)
  | (t2, Except.error _) => (t2, false)

/-- `process_view_tokens` returns the deduplicated token count whether or not
the save step succeeded. -/
def processViewTokens (t : Pg.Table) (df : List Pg.InputRow) (viewName : String)
    (time : Int) (failAt : Nat → Bool) : Pg.Table × Except Unit Nat :=
  ((processSave t df viewName time failAt).1, Except.ok (dedupKeepLast df).length)

/-- `main` of worker_scheduled.py: `sys.exit(0)` when the worker returns,
`sys.exit(1)` only when it raises. -/
def mainExitCode : Except Unit Nat → Nat
  | Except.ok _ => 0
  | Except.error _ => 1

/-- C8 counterexample: with a sink whose every batch fails, the scheduled
run still completes normally (process_view_tokens returns the token count)
and the process exits 0, not non-zero as the claim requires; the save step
merely records the failure. -/
theorem upsert_failure_exit_zero_cex :
    (processViewTokens Pg.sampleTable [Pg.sampleInput] "sol_500_swaps_7_days" 5
        (fun _ => true)).2 = Except.ok 1 ∧
    mainExitCode (processViewTokens Pg.sampleTable [Pg.sampleInput]
        "sol_500_swaps_7_days" 5 (fun _ => true)).2 = 0 ∧
    (processSave Pg.sampleTable [Pg.sampleInput] "sol_500_swaps_7_days" 5
        (fun _ => true)).2 = false := by
  exact ⟨rfl, rfl, rfl⟩

/-- C8 amended: a failure of the final upsert is caught inside
`process_view_tokens`: the run completes normally and the worker exits 0;
and because every batch commits its own transaction, the batches before the
failing one remain written, only the failing batch and its successors are
lost. -/
theorem upsert_failure_swallowed_amended :
    (∀ (t : Pg.Table) (df : List Pg.InputRow) (vn : String) (time : Int)
        (failAt : Nat → Bool),
      (processViewTokens t df vn time failAt).2 = Except.ok (dedupKeepLast df).length ∧
      mainExitCode (processViewTokens t df vn time failAt).2 = 0) ∧
    (∀ (failAt : Nat → Bool) (k : Nat) (batches : List (List Pg.StoredRow))
        (t : Pg.Table) (i total : Nat),
      (∀ j, j < k → failAt (i + j) = false) → failAt (i + k) = true →
      k < batches.length →
      Pg.runInsertBatches failAt t batches i total
        = ((batches.take k).foldl (fun acc b => b.foldl Pg.execInsertUpsert acc) t,
            Except.error ())) :=
  ⟨fun _ _ _ _ _ => ⟨rfl, rfl⟩, fun failAt k => runInsertBatches_prefix failAt k⟩

/-- First prepared row for the partial-commit witness. -/
def wsRow1 : Pg.StoredRow := Pg.buildUpsertRow "v" 1 Pg.sampleInput

/-- Second prepared row for the partial-commit witness. -/
def wsRow2 : Pg.StoredRow := Pg.buildUpsertRow "v" 2 Pg.sampleInput

/-- Witness for the amended C8 statement: a failing sink leaves the run at
exit code 0, and with the second batch failing the first batch's row is
already committed while nothing else is written. -/
theorem upsert_failure_swallowed_amended_witness :
    (processViewTokens Pg.sampleTable [Pg.sampleInput] "v" 9 (fun _ => true)).2
      = Except.ok 1 ∧
    mainExitCode (processViewTokens Pg.sampleTable [Pg.sampleInput] "v" 9
        (fun _ => true)).2 = 0 ∧
    Pg.runInsertBatches (fun i => i == 1) [] [[wsRow1], [wsRow2]] 0 0
      = ([wsRow1], Except.error ()) := by
  refine ⟨(upsert_failure_swallowed_amended.1 Pg.sampleTable [Pg.sampleInput] "v" 9
      (fun _ => true)).1,
    (upsert_failure_swallowed_amended.1 Pg.sampleTable [Pg.sampleInput] "v" 9
      (fun _ => true)).2, ?_⟩
  have h := upsert_failure_swallowed_amended.2 (fun i => i == 1) 1 [[wsRow1], [wsRow2]]
    [] 0 0 (fun j hj => by
      have hj0 : j = 0 := by omega
      rw [hj0]
      rfl) rfl (by decide)
  exact h

end WSched

namespace Meta

/-- 2^32, the modulus of the 32-bit words of SHA-256. -/
def M32 : Nat := 4294967296

/-- Right rotation of a 32-bit word. -/
def rotr (n x : Nat) : Nat := (x >>> n) ||| ((x <<< (32 - n)) % M32)

/-- SHA-256 big sigma 0. -/
def bsig0 (x : Nat) : Nat := rotr 2 x ^^^ rotr 13 x ^^^ rotr 22 x

/-- SHA-256 big sigma 1. -/
def bsig1 (x : Nat) : Nat := rotr 6 x ^^^ rotr 11 x ^^^ rotr 25 x

/-- SHA-256 small sigma 0. -/
def ssig0 (x : Nat) : Nat := rotr 7 x ^^^ rotr 18 x ^^^ (x >>> 3)

/-- SHA-256 small sigma 1. -/
def ssig1 (x : Nat) : Nat := rotr 17 x ^^^ rotr 19 x ^^^ (x >>> 10)

/-- SHA-256 choice function. -/
def chF (x y z : Nat) : Nat := (x &&& y) ^^^ ((x ^^^ 4294967295) &&& z)

/-- SHA-256 majority function. -/
def majF (x y z : Nat) : Nat := (x &&& y) ^^^ (x &&& z) ^^^ (y &&& z)

/-- The 64 SHA-256 round constants of FIPS 180-4, in decimal. -/
def K : List Nat :=
  [1116352408, 1899447441, 3049323471, 3921009573,
   961987163, 1508970993, 2453635748, 2870763221,
   3624381080, 310598401, 607225278, 1426881987,
   1925078388, 2162078206, 2614888103, 3248222580,
   3835390401, 4022224774, 264347078, 604807628,
   770255983, 1249150122, 1555081692, 1996064986,
   2554220882, 2821834349, 2952996808, 3210313671,
   3336571891, 3584528711, 113926993, 338241895,
   666307205, 773529912, 1294757372, 1396182291,
   1695183700, 1986661051, 2177026350, 2456956037,
   2730485921, 2820302411, 3259730800, 3345764771,
   3516065817, 3600352804, 4094571909, 275423344,
   430227734, 506948616, 659060556, 883997877,
   958139571, 1322822218, 1537002063, 1747873779,
   1955562222, 2024104815, 2227730452, 2361852424,
   2428436474, 2756734187, 3204031479, 3329325298]

/-- The eight 32-bit words of an SHA-256 state. -/
structure H8 where
  a : Nat
  b : Nat
  c : Nat
  d : Nat
  e : Nat
  f : Nat
  g : Nat
  h : Nat
deriving Repr, DecidableEq

/-- One SHA-256 compression round. -/
def round (s : H8) (kc w : Nat) : H8 :=
  { a := ((s.h + bsig1 s.e + chF s.e s.f s.g + kc + w) % M32 +
      (bsig0 s.a + majF s.a s.b s.c) % M32) % M32
    b := s.a
    c := s.b
    d := s.c
    e := (s.d + (s.h + bsig1 s.e + chF s.e s.f s.g + kc + w) % M32) % M32
    f := s.e
    g := s.f
    h := s.g }

/-- One message-schedule extension step: append W[t] computed from
W[t-2], W[t-7], W[t-15] and W[t-16]. -/
def schedStep (w : List Nat) : List Nat :=
  w ++ [(ssig1 (w.getD (w.length - 2) 0) + w.getD (w.length - 7) 0 +
    ssig0 (w.getD (w.length - 15) 0) + w.getD (w.length - 16) 0) % M32]

/-- Repeated message-schedule extension. -/
def extendSchedule : Nat → List Nat → List Nat
  | 0, w => w
  | n + 1, w => extendSchedule n (schedStep w)

/-- The 64-entry message schedule of a 16-word block. -/
def schedule (block : List Nat) : List Nat := extendSchedule 48 block

/-- Compress one 16-word block into the running state. -/
def compressBlock (h0 : H8) (block : List Nat) : H8 :=
  let s := ((K.zip (schedule block)).foldl (fun s p => round s p.1 p.2) h0)
  { a := (h0.a + s.a) % M32
    b := (h0.b + s.b) % M32
    c := (h0.c + s.c) % M32
    d := (h0.d + s.d) % M32
    e := (h0.e + s.e) % M32
    f := (h0.f + s.f) % M32
    g := (h0.g + s.g) % M32
    h := (h0.h + s.h) % M32 }

/-- Group bytes into big-endian 32-bit words. -/
def bytesToWords : List Nat → List Nat
  | a :: b :: c :: d :: rest => (a * 16777216 + b * 65536 + c * 256 + d) :: bytesToWords rest
  | _ => []

/-- A number as exactly `len` big-endian bytes. -/
def natToBEBytes : Nat → Nat → List Nat
  | 0, _ => []
  | l + 1, n => natToBEBytes l (n / 256) ++ [n % 256]

/-- SHA-256 padding: a 0x80 byte, zeros to 56 mod 64, and the bit length as
eight big-endian bytes. -/
def padMessage (msg : List Nat) : List Nat :=
  msg ++ [128] ++ List.replicate ((64 + 55 - msg.length % 64) % 64) 0 ++
    natToBEBytes 8 (msg.length * 8)

/-- A 32-bit word as four big-endian bytes. -/
def wordToBytes (w : Nat) : List Nat :=
  [w / 16777216 % 256, w / 65536 % 256, w / 256 % 256, w % 256]

/-- SHA-256 of a byte list (FIPS 180-4), as its 32 digest bytes. -/
def sha256 (msg : List Nat) : List Nat :=
  let hh := (toBatches 16 (bytesToWords (padMessage msg))).foldl compressBlock
    { a := 1779033703, b := 3144134277, c := 1013904242, d := 2773480762,
      e := 1359893119, f := 2600822924, g := 528734635, h := 1541459225 }
  wordToBytes hh.a ++ wordToBytes hh.b ++ wordToBytes hh.c ++ wordToBytes hh.d ++
    wordToBytes hh.e ++ wordToBytes hh.f ++ wordToBytes hh.g ++ wordToBytes hh.h

/-- The Base58 alphabet. -/
def b58Alphabet : List Char :=
  "123456789ABCDEFGHJKLMNPQRSTUVWXYZabcdefghijkmnopqrstuvwxyz".toList

/-- The value of one Base58 character, or nothing for an invalid one. -/
def b58CharVal (c : Char) : Option Nat := b58Alphabet.indexOf? c

/-- The big-endian Base58 value of a character list; an invalid character
makes decoding fail (the library raises, the caller catches). -/
def b58NatOfChars : List Char → Nat → Option Nat
  | [], acc => some acc
  | c :: rest, acc =>
    match b58CharVal c with
    | none => none
    | some v => b58NatOfChars rest (acc * 58 + v)

/-- Minimal big-endian byte representation of a number, via fuel. -/
def natToBytesBEAux : Nat → Nat → List Nat
  | 0, _ => []
  | fuel + 1, n => if n = 0 then [] else natToBytesBEAux fuel (n / 256) ++ [n % 256]

/-- Minimal big-endian byte representation of a number. -/
def natToBytesBE (n : Nat) : List Nat := natToBytesBEAux (n + 1) n

/-- `base58.b58decode`: leading '1' characters become leading zero bytes,
the rest is the big-endian base-58 value. -/
def b58decode (s : String) : Option (List Nat) :=
  match b58NatOfChars s.toList 0 with
  | none => none
  | some n =>
    some (List.replicate ((s.toList.takeWhile (fun c => c == '1')).length) 0 ++
      natToBytesBE n)

/-- Base-58 digits of a number, most significant first, via fuel. -/
def natToB58Aux : Nat → Nat → List Char
  | 0, _ => []
  | fuel + 1, n =>
    if n = 0 then [] else natToB58Aux fuel (n / 58) ++ [b58Alphabet.getD (n % 58) '1']

/-- `base58.b58encode`: leading zero bytes become '1' characters, the rest is
the base-58 representation of the big-endian value. -/
def b58encode (bs : List Nat) : String :=
  String.mk (List.replicate ((bs.takeWhile (fun b => b == 0)).length) '1' ++
    natToB58Aux (bs.foldl (fun acc b => acc * 256 + b) 0 + 1)
      (bs.foldl (fun acc b => acc * 256 + b) 0))

/-- The bytes of an ASCII string. -/
def strBytes (s : String) : List Nat := s.toList.map Char.toNat

/-- The Metaplex token-metadata program id. -/
def METAPLEX_PROGRAM_ID : String := "metaqbxxUerdq28cj1RbAWkYQm3ybzjb6a8bt518x1s"

/-- The domain-separation constant appended in `_create_program_address`. -/
def pdaMarker : List Nat := strBytes "ProgramDerivedAddress"

/-- `MetadataFetcher._is_on_curve`: the ed25519 on-curve check is stubbed and
always reports off-curve. -/
def isOnCurve (_pk : List Nat) : Bool := false

/-- `MetadataFetcher._create_program_address`: SHA-256 over the concatenated
seeds, the program id and the marker; fails (raises ValueError) when the
digest would be on the ed25519 curve. -/
def createProgramAddress (seeds : List (List Nat)) (programId : List Nat) :
    Option (List Nat) :=
  if isOnCurve (sha256 (seeds.flatten ++ programId ++ pdaMarker)) then none
  else some (sha256 (seeds.flatten ++ programId ++ pdaMarker))

/-- The bump-seed search loop of `_find_program_address`: first bump whose
candidate address is accepted wins. -/
def findPdaLoop (seeds : List (List Nat)) (programId : List Nat) :
    List Nat → Option (List Nat × Nat)
  | [] => none
  | b :: rest =>
    match createProgramAddress (seeds ++ [[b]]) programId with
    | some pda => some (pda, b)
    | none => findPdaLoop seeds programId rest

/-- The bump seeds tried by `for bump in range(256, 0, -1)` with
`bytes([bump - 1])`: 255 down to 0. -/
def bumpSeq : List Nat := (List.range 256).reverse

/-- `MetadataFetcher._find_program_address`. -/
def findProgramAddress (seeds : List (List Nat)) (programId : List Nat) :
    Option (List Nat × Nat) :=
  findPdaLoop seeds programId bumpSeq

/-- `MetadataFetcher._derive_metadata_pda`: Base58-decode the program id and
the mint, search a program address for seeds
`("metadata", program_id, mint)`, and Base58-encode the result; any failure
(including an undecodable mint) yields nothing. -/
def deriveMetadataPda (mint : String) : Option String :=
  match b58decode METAPLEX_PROGRAM_ID, b58decode mint with
  | some pid, some mintB =>
    match findProgramAddress [strBytes "metadata", pid, mintB] pid with
    | some (pda, _) => some (b58encode pda)
    | none => none
  | _, _ => none

theorem createProgramAddress_eq (seeds : List (List Nat)) (pid : List Nat) :
    createProgramAddress seeds pid = some (sha256 (seeds.flatten ++ pid ++ pdaMarker)) :=
  rfl

theorem bumpSeq_head : bumpSeq = 255 :: (List.range 255).reverse := by
  rw [bumpSeq, List.range_succ, List.reverse_append]
  rfl

theorem findProgramAddress_eq (seeds : List (List Nat)) (pid : List Nat) :
    findProgramAddress seeds pid
      = some (sha256 (seeds.flatten ++ [255] ++ pid ++ pdaMarker), 255) := by
  rw [findProgramAddress, bumpSeq_head, findPdaLoop, createProgramAddress_eq]
  simp [List.flatten_append, List.append_assoc]

/-- C9: the ed25519 on-curve check is stubbed to always report off-curve;
for all seeds the bump search of `_find_program_address` (bumps 255 down
to 0) therefore succeeds on its first iteration, returning bump 255 and the
SHA-256 digest of seeds, bump byte, program id and the constant
"ProgramDerivedAddress"; hence for every mint address that Base58-decodes,
the metadata PDA is the Base58 encoding of the digest of
("metadata", program id, mint id, 255, program id, marker). -/
theorem metadata_pda_first_bump :
    (∀ pk : List Nat, isOnCurve pk = false) ∧
    (∀ (seeds : List (List Nat)) (pid : List Nat),
      findProgramAddress seeds pid
        = some (sha256 (seeds.flatten ++ [255] ++ pid ++ pdaMarker), 255)) ∧
    (∀ (mint : String) (pid mintB : List Nat),
      b58decode METAPLEX_PROGRAM_ID = some pid →
      b58decode mint = some mintB →
      deriveMetadataPda mint
        = some (b58encode (sha256 (strBytes "metadata" ++ pid ++ mintB ++ [255] ++
            pid ++ pdaMarker)))) := by
  refine ⟨fun _ => rfl, findProgramAddress_eq, ?_⟩
  intro mint pid mintB h1 h2
  simp only [deriveMetadataPda, h1, h2, findProgramAddress_eq]
  simp [List.append_assoc]

/-- The Base58 decoding of the Metaplex program id. -/
def pidBytes : List Nat :=
  [11, 112, 101, 177, 227, 209, 124, 69, 56, 157, 82, 127, 107, 4, 195, 205,
   88, 184, 108, 115, 26, 160, 253, 181, 73, 182, 209, 188, 3, 248, 41, 70]

/-- Witness for C9 at the concrete mint "2" (which Base58-decodes to the
single byte 1): the derivation returns the bump-255 digest. -/
theorem metadata_pda_first_bump_witness :
    b58decode METAPLEX_PROGRAM_ID = some pidBytes ∧
    b58decode "2" = some [1] ∧
    deriveMetadataPda "2"
      = some (b58encode (sha256 (strBytes "metadata" ++ pidBytes ++ [1] ++ [255] ++
          pidBytes ++ pdaMarker))) :=
  ⟨rfl, rfl, metadata_pda_first_bump.2.2 "2" pidBytes [1] rfl rfl⟩

end Meta

end TokenRep
